import Mathlib

/-!
Verification of the SEO agent worker (`src/worker.ts`).

The worker's pure logic is shallowly embedded here:

* `PageData` mirrors the `pageData` object built in `analyzeSeoMultiStep`
  (raw html plus the five extracted features).
* `calculateSeoScore`, `findSeoIssues`, `generateRecommendations` mirror the
  rule-based analysis helpers line by line.  JavaScript string falsiness
  (`!pageData.title`) is the empty-string test, and `.length` is modelled as
  the number of characters.  JavaScript numbers on this integral code path
  are modelled as `Int` (the score arithmetic stays within machine-safe
  integers).
* The HTML extractors, the JSON serialization used by the KV cache, and the
  HTTP handlers are embedded further below.
-/

/-- The `pageData` record built in `analyzeSeoMultiStep` (worker.ts:26-33). -/
structure PageData where
  html : String
  title : String
  metaDescription : String
  headings : List String
  images : List String
  links : List String
deriving DecidableEq

/-- Sentinel returned by `extractTitle` when the title regex has no match. -/
def noTitleSentinel : String := "No title found"

/-- Sentinel returned by `extractMetaDescription` when its regex has no match. -/
def noMetaSentinel : String := "No meta description"

/-- Title clause of `calculateSeoScore` (worker.ts:247-254): the number of
points deducted for the title.  The `else if` chain of the source makes the
deductions mutually exclusive, so the clause is a single value. -/
def titlePenalty (t : String) : Int :=
  if t = "" ∨ t = noTitleSentinel then 20
  else if t.length < 30 then 10
  else if t.length > 60 then 10
  else 0

/-- Meta-description clause of `calculateSeoScore` (worker.ts:256-263). -/
def descriptionPenalty (d : String) : Int :=
  if d = "" ∨ d = noMetaSentinel then 20
  else if d.length < 120 then 10
  else if d.length > 160 then 10
  else 0

/-- Headings clause of `calculateSeoScore` (worker.ts:265-270). -/
def headingsPenalty (n : Nat) : Int :=
  if n = 0 then 15
  else if n < 3 then 5
  else 0

/-- Images clause of `calculateSeoScore` (worker.ts:272-275). -/
def imagesPenalty (n : Nat) : Int :=
  if n > 20 then 10 else 0

/-- Links clause of `calculateSeoScore` (worker.ts:277-280). -/
def linksPenalty (n : Nat) : Int :=
  if n < 3 then 10 else 0

/-- `calculateSeoScore` (worker.ts:244-283): start from 100, apply the five
sequential `else if` deduction blocks of the source (factored here into one
clause function per field, in source order), then clamp with
`Math.max(0, Math.min(100, score))`. -/
def calculateSeoScore (pd : PageData) : Int :=
  let score : Int := 100
  let score := score - titlePenalty pd.title
  let score := score - descriptionPenalty pd.metaDescription
  let score := score - headingsPenalty pd.headings.length
  let score := score - imagesPenalty pd.images.length
  let score := score - linksPenalty pd.links.length
  max 0 (min 100 score)

/-- Issue strings pushed by `findSeoIssues` (worker.ts:285-326), verbatim from
the source (including its mangled emoji prefixes); the length interpolations
of the template literals become explicit `toString`. -/
def missingTitleIssue : String := "‚ùå Missing title tag - critical for SEO"

/-- See `missingTitleIssue`. -/
def titleShortIssue (n : Nat) : String :=
  "‚ö†Ô∏è Title tag is too short (" ++ toString n ++ " characters) - should be 50-60 characters"

/-- See `missingTitleIssue`. -/
def titleLongIssue (n : Nat) : String :=
  "‚ö†Ô∏è Title tag is too long (" ++ toString n ++ " characters) - may be truncated in search results"

/-- See `missingTitleIssue`. -/
def missingDescriptionIssue : String := "‚ùå Missing meta description - important for click-through rates"

/-- See `missingTitleIssue`. -/
def descriptionShortIssue (n : Nat) : String :=
  "‚ö†Ô∏è Meta description is too short (" ++ toString n ++ " characters) - should be 150-160 characters"

/-- See `missingTitleIssue`. -/
def descriptionLongIssue (n : Nat) : String :=
  "‚ö†Ô∏è Meta description is too long (" ++ toString n ++ " characters) - will be truncated"

/-- See `missingTitleIssue`. -/
def noHeadingsIssue : String := "‚ùå No heading tags (H1-H6) found - critical for content structure"

/-- See `missingTitleIssue`. -/
def fewHeadingsIssue : String := "‚ö†Ô∏è Low number of headings - consider adding more subheadings for better structure"

/-- The informational issue pushed when the page has zero images; it carries
no score penalty. -/
def noImagesIssue : String := "‚ÑπÔ∏è No images found - visual content can improve engagement"

/-- See `missingTitleIssue`. -/
def manyImagesIssue (n : Nat) : String :=
  "‚ö†Ô∏è High number of images (" ++ toString n ++ ") - ensure optimization to prevent slow load times"

/-- See `missingTitleIssue`. -/
def fewLinksIssue : String := "‚ö†Ô∏è Low number of internal links - improve site structure with more linking"

/-- Title clause of `findSeoIssues` (worker.ts:288-295): what the first
`else if` chain pushes (at most one issue). -/
def titleIssues (t : String) : List String :=
  if t = "" ∨ t = noTitleSentinel then [missingTitleIssue]
  else if t.length < 30 then [titleShortIssue t.length]
  else if t.length > 60 then [titleLongIssue t.length]
  else []

/-- Meta-description clause of `findSeoIssues` (worker.ts:297-304). -/
def descriptionIssues (d : String) : List String :=
  if d = "" ∨ d = noMetaSentinel then [missingDescriptionIssue]
  else if d.length < 120 then [descriptionShortIssue d.length]
  else if d.length > 160 then [descriptionLongIssue d.length]
  else []

/-- Headings clause of `findSeoIssues` (worker.ts:306-311). -/
def headingIssues (n : Nat) : List String :=
  if n = 0 then [noHeadingsIssue]
  else if n < 3 then [fewHeadingsIssue]
  else []

/-- Images clause of `findSeoIssues` (worker.ts:313-318): zero images emits
the informational issue (no score penalty), more than 20 the warning. -/
def imageIssues (n : Nat) : List String :=
  if n = 0 then [noImagesIssue]
  else if n > 20 then [manyImagesIssue n]
  else []

/-- Links clause of `findSeoIssues` (worker.ts:320-323). -/
def linkIssues (n : Nat) : List String :=
  if n < 3 then [fewLinksIssue] else []

/-- `findSeoIssues` (worker.ts:285-326): the sequential conditional pushes in
source order (title, description, headings, images, links), factored into
one clause per field. -/
def findSeoIssues (pd : PageData) : List String :=
  let issues : List String := []
  let issues := issues ++ titleIssues pd.title
  let issues := issues ++ descriptionIssues pd.metaDescription
  let issues := issues ++ headingIssues pd.headings.length
  let issues := issues ++ imageIssues pd.images.length
  let issues := issues ++ linkIssues pd.links.length
  issues

/-- A `{ text, priority }` recommendation (worker.ts:328). -/
structure Recommendation where
  text : String
  priority : String
deriving DecidableEq

/-- Conditional title recommendation (worker.ts:332-337).  Note its trigger
`title.length < 50`, which differs from the scoring thresholds. -/
def titleRec : Recommendation :=
  ⟨"üìù Add a descriptive, keyword-rich title tag (50-60 characters)", "High"⟩

/-- Conditional meta-description recommendation (worker.ts:340-345). -/
def descriptionRec : Recommendation :=
  ⟨"üìù Create a compelling meta description (150-160 characters) with a call-to-action", "High"⟩

/-- Conditional headings recommendation (worker.ts:348-353). -/
def headingsRec : Recommendation :=
  ⟨"üèóÔ∏è Implement proper heading structure (H1 for title, H2-H6 for sections)", "High"⟩

/-- Universal recommendations (worker.ts:355-384), in push order. -/
def imagesAltRec : Recommendation :=
  ⟨"üñºÔ∏è Ensure all images have descriptive alt text for accessibility and SEO", "Medium"⟩

/-- See `imagesAltRec`. -/
def pageSpeedRec : Recommendation :=
  ⟨"‚ö° Optimize page load speed - compress images, minify CSS/JS, use CDN", "Medium"⟩

/-- See `imagesAltRec`. -/
def internalLinksRec : Recommendation :=
  ⟨"üîó Add 3-5 internal links to relevant pages to improve site structure", "Medium"⟩

/-- See `imagesAltRec`. -/
def mobileRec : Recommendation :=
  ⟨"üì± Verify mobile responsiveness - Google uses mobile-first indexing", "Medium"⟩

/-- See `imagesAltRec`. -/
def httpsRec : Recommendation :=
  ⟨"üîí Ensure HTTPS is properly configured across the entire site", "Low"⟩

/-- See `imagesAltRec`. -/
def sitemapRec : Recommendation :=
  ⟨"üó∫Ô∏è Submit XML sitemap to Google Search Console for better indexing", "Low"⟩

/-- The fixed block of universal recommendations appended by
`generateRecommendations` after the conditional ones (worker.ts:355-384).
The source pushes exactly these six. -/
def universalRecs : List Recommendation :=
  [imagesAltRec, pageSpeedRec, internalLinksRec, mobileRec, httpsRec, sitemapRec]

/-- `generateRecommendations` (worker.ts:328-387): three conditional pushes,
then the six universal pushes. -/
def generateRecommendations (pd : PageData) : List Recommendation :=
  let recs : List Recommendation := []
  let recs :=
    if pd.title = "" ∨ pd.title = noTitleSentinel ∨ pd.title.length < 50
    then recs ++ [titleRec] else recs
  let recs :=
    if pd.metaDescription = "" ∨ pd.metaDescription = noMetaSentinel
    then recs ++ [descriptionRec] else recs
  let recs := if pd.headings.length = 0 then recs ++ [headingsRec] else recs
  let recs := recs ++ [imagesAltRec]
  let recs := recs ++ [pageSpeedRec]
  let recs := recs ++ [internalLinksRec]
  let recs := recs ++ [mobileRec]
  let recs := recs ++ [httpsRec]
  let recs := recs ++ [sitemapRec]
  recs

/-- The conditional prefix of `generateRecommendations`, for stating the
decomposition of its output. -/
def conditionalRecs (pd : PageData) : List Recommendation :=
  (if pd.title = "" ∨ pd.title = noTitleSentinel ∨ pd.title.length < 50 then [titleRec] else [])
    ++ (if pd.metaDescription = "" ∨ pd.metaDescription = noMetaSentinel then [descriptionRec] else [])
    ++ (if pd.headings.length = 0 then [headingsRec] else [])

/-!
HTML feature extractors (worker.ts:214-241).

Each JavaScript regex is embedded as a character-level scan with the exact
ECMAScript semantics of the source pattern: leftmost match wins (the engine
advances the start position one character at a time), `.` matches any
character except a line terminator, a lazy `(.*?)` takes the shortest
content, a greedy negated class takes the longest run its continuation
allows, and the `i` flag folds ASCII case on the letters of the pattern.
Global (`g`) matching re-starts after the end of the previous match.
-/

/-- ECMAScript line terminators (LF, CR, LS U+2028, PS U+2029), which `.`
never matches. -/
def isLineTerminator (c : Char) : Bool :=
  c = '\n' || c = '\r' || c.toNat = 0x2028 || c.toNat = 0x2029

/-- ECMAScript `\s` (whitespace) class: tab, LF, VT, FF, CR, space, NBSP,
U+1680, U+2000-U+200A, LS, PS, U+202F, U+205F, U+3000 and the BOM. -/
def isJsSpace (c : Char) : Bool :=
  c = ' ' || c = '\t' || c = '\n' || c.toNat = 0x0b || c.toNat = 0x0c || c = '\r'
    || c.toNat = 0xa0 || c.toNat = 0x1680
    || (0x2000 ≤ c.toNat && c.toNat ≤ 0x200a)
    || c.toNat = 0x2028 || c.toNat = 0x2029 || c.toNat = 0x202f || c.toNat = 0x205f
    || c.toNat = 0x3000 || c.toNat = 0xfeff

/-- A quote character, for the `["']` classes of the source regexes. -/
def isQuote (c : Char) : Bool := c = '"' || c = Char.ofNat 39

/-- Case-insensitive prefix test: the pattern (given in lowercase) matches a
prefix of the input under ASCII case folding, as the `i` flag does. -/
def startsWithCI : List Char → List Char → Bool
  | [], _ => true
  | _ :: _, [] => false
  | p :: ps, c :: cs => (p.toLower = c.toLower) && startsWithCI ps cs

/-- Pattern of the opening tag in `/<title>(.*?)<\/title>/i`. -/
def titleOpen : List Char := "<title>".data

/-- Pattern of the closing tag in `/<title>(.*?)<\/title>/i`. -/
def titleCloseTag : List Char := "</title>".data

/-- The lazy `(.*?)<\/title>` part of the title regex, starting right after
the opening tag: the shortest run of non-line-terminator characters followed
by a case-insensitive `</title>`; `none` when no such close exists. -/
def titleClose : List Char → Option (List Char)
  | [] => none
  | c :: cs =>
    if startsWithCI titleCloseTag (c :: cs) then some []
    else if isLineTerminator c then none
    else (titleClose cs).map (c :: ·)

/-- Leftmost-match search of `/<title>(.*?)<\/title>/i`: try every start
position from the left; at a position where the opening tag matches but no
close completes the match, the engine moves on to the next position. -/
def titleScan : List Char → Option (List Char)
  | [] => none
  | c :: cs =>
    if startsWithCI titleOpen (c :: cs) then
      match titleClose ((c :: cs).drop 7) with
      | some content => some content
      | none => titleScan cs
    else titleScan cs

/-- `extractTitle` (worker.ts:215-218): the first capture of
`html.match(/<title>(.*?)<\/title>/i)`, or the sentinel. -/
def extractTitle (html : String) : String :=
  match titleScan html.data with
  | some content => String.mk content
  | none => noTitleSentinel

/-- Whether a case-insensitive `<title>` occurs anywhere in the input — the
hypothesis "the HTML has no `<title>` element" of the claims. -/
def hasTitleOpen : List Char → Bool
  | [] => false
  | c :: cs => startsWithCI titleOpen (c :: cs) || hasTitleOpen cs

/-- `startsWithCI pat (cs.drop i) = true`: the title opening tag matches at
position `i`. -/
def titleOpenAt (cs : List Char) (i : Nat) : Prop :=
  startsWithCI titleOpen (cs.drop i) = true

/-- The title closing tag matches at position `j`. -/
def titleCloseAt (cs : List Char) (j : Nat) : Prop :=
  startsWithCI titleCloseTag (cs.drop j) = true

/-- A complete match of the title regex with content spanning positions
`i + 7` (after the opening tag) up to `j` (the closing tag), every content
character being one `.` can match (not a line terminator). -/
def titlePairAt (cs : List Char) (i j : Nat) : Prop :=
  titleOpenAt cs i ∧ titleCloseAt cs j ∧ i + 7 ≤ j ∧
    ∀ k, i + 7 ≤ k → k < j → ∃ c, (cs.drop k).head? = some c ∧ isLineTerminator c = false

/-- Modelled from the spec: "Title: first `<title>` element's text content,
case-insensitive tag match; sentinel if absent" — the content (any
characters) from the first case-insensitive `<title>` up to the next
case-insensitive `</title>`.  This is the claim's reading, to be compared
with the code's `extractTitle`. -/
def specTitleContent : List Char → Option (List Char)
  | [] => none
  | c :: cs =>
    if startsWithCI titleCloseTag (c :: cs) then some []
    else (specTitleContent cs).map (c :: ·)

/-- Modelled from the spec: scan for the first opening `<title>`; see
`specTitleContent`. -/
def specTitleScan : List Char → Option (List Char)
  | [] => none
  | c :: cs =>
    if startsWithCI titleOpen (c :: cs) then specTitleContent ((c :: cs).drop 7)
    else specTitleScan cs

/-- Modelled from the spec: the first `<title>` element's text content, or
`none` when the document has no such element. -/
def firstTitleElementSpec (html : String) : Option String :=
  (specTitleScan html.data).map String.mk

/-- `<meta` / `name=` / `description` / `content=` literals of the
meta-description regex (worker.ts:221), lowercase for the `i` flag. -/
def metaPat : List Char := "<meta".data

/-- See `metaPat`. -/
def namePat : List Char := "name=".data

/-- See `metaPat`. -/
def descriptionPat : List Char := "description".data

/-- See `metaPat`. -/
def contentPat : List Char := "content=".data

/-- Case-insensitive literal consumption: `some rest` when the pattern
matches here. -/
def stripPrefixCI (pat cs : List Char) : Option (List Char) :=
  if startsWithCI pat cs then some (cs.drop pat.length) else none

/-- `\s+`: at least one ECMAScript whitespace character, consumed greedily
(the following literal is never whitespace, so greediness is exact). -/
def skipSpaces1 (cs : List Char) : Option (List Char) :=
  match cs with
  | [] => none
  | c :: cs' => if isJsSpace c then some (cs'.dropWhile isJsSpace) else none

/-- The lazy `(.*?)["']` tail of the meta regex: shortest run of
non-line-terminator characters up to a quote (either kind, as in the
source's `["']` class). -/
def untilQuote : List Char → Option (List Char)
  | [] => none
  | c :: cs =>
    if isQuote c then some []
    else if isLineTerminator c then none
    else (untilQuote cs).map (c :: ·)

/-- One attempt of `/<meta\s+name=["']description["']\s+content=["'](.*?)["']/i`
at the current position, returning the capture. -/
def metaAttempt (cs : List Char) : Option (List Char) := do
  let r1 ← stripPrefixCI metaPat cs
  let r2 ← skipSpaces1 r1
  let r3 ← stripPrefixCI namePat r2
  let r4 ← match r3 with
    | c :: rest => if isQuote c then some rest else none
    | [] => none
  let r5 ← stripPrefixCI descriptionPat r4
  let r6 ← match r5 with
    | c :: rest => if isQuote c then some rest else none
    | [] => none
  let r7 ← skipSpaces1 r6
  let r8 ← stripPrefixCI contentPat r7
  let r9 ← match r8 with
    | c :: rest => if isQuote c then some rest else none
    | [] => none
  untilQuote r9

/-- Leftmost-match search for the meta-description regex. -/
def metaScan : List Char → Option (List Char)
  | [] => none
  | c :: cs =>
    match metaAttempt (c :: cs) with
    | some content => some content
    | none => metaScan cs

/-- `extractMetaDescription` (worker.ts:220-223). -/
def extractMetaDescription (html : String) : String :=
  match metaScan html.data with
  | some content => String.mk content
  | none => noMetaSentinel

/-- A digit `1`-`6`, for the `[1-6]` classes of the heading regex. -/
def isHeadingDigit (c : Char) : Bool :=
  0x31 ≤ c.toNat && c.toNat ≤ 0x36

/-- Whether a case-insensitive `<\/h[1-6]>` closing tag starts here. -/
def isHClose : List Char → Bool
  | a :: b :: c :: d :: e :: _ =>
    a = '<' && b = '/' && c.toLower = 'h' && isHeadingDigit d && e = '>'
  | _ => false

/-- Lazy `(.*?)<\/h[1-6]>` content scan: length of the shortest run of
non-line-terminator characters before a heading closing tag. -/
def hContentScan : List Char → Option Nat
  | [] => none
  | c :: cs =>
    if isHClose (c :: cs) then some 0
    else if isLineTerminator c then none
    else (hContentScan cs).map (· + 1)

/-- One attempt of `/<h[1-6][^>]*>(.*?)<\/h[1-6]>/i` at the current
position, returning the length of the full match (the whole-element text is
what `html.match` collects with the `g` flag).  The greedy `[^>]*` is exact:
it runs to the first `>` or fails. -/
def headingAttempt (l : List Char) : Option Nat :=
  match stripPrefixCI "<h".data l with
  | none => none
  | some r1 =>
    match r1 with
    | [] => none
    | d :: r2 =>
      if isHeadingDigit d then
        let attrs := r2.takeWhile (fun c => c ≠ '>')
        match r2.drop attrs.length with
        | '>' :: r3 =>
          match hContentScan r3 with
          | some k => some (2 + 1 + attrs.length + 1 + k + 5)
          | none => none
        | _ => none
      else none

/-- Fuel-driven global (`g` flag) scan: collect `(captured text, match
length)` left to right, restarting after each match (a zero-length match
would advance one position, as the ECMAScript `matchAll` loop does).  The
fuel `input length + 1` always suffices because every step consumes at
least one character. -/
def tagScanF (attempt : List Char → Option (List Char × Nat)) : Nat → List Char → List (List Char)
  | 0, _ => []
  | _ + 1, [] => []
  | f + 1, c :: cs =>
    match attempt (c :: cs) with
    | some (cap, len) => cap :: tagScanF attempt f (cs.drop (len - 1))
    | none => tagScanF attempt f cs

/-- `some rest-after` for the first `>` in the input, used by the global
`replace(/<[^>]*>/g, '')` stripping of the source. -/
def findGt : List Char → Option (List Char)
  | [] => none
  | c :: cs => if c = '>' then some cs else findGt cs

/-- Fuel-driven `h.replace(/<[^>]*>/g, '')`: drop every `<`...`>` run; a `<`
with no later `>` never matches and stays. -/
def stripTagsF : Nat → List Char → List Char
  | 0, _ => []
  | _ + 1, [] => []
  | f + 1, c :: cs =>
    if c = '<' then
      match findGt cs with
      | some rest => stripTagsF f rest
      | none => c :: stripTagsF f cs
    else c :: stripTagsF f cs

/-- See `stripTagsF`. -/
def stripTags (cs : List Char) : List Char := stripTagsF (cs.length + 1) cs

/-- `extractHeadings` (worker.ts:225-229): the full heading elements matched
globally, each then stripped of `<...>` runs. -/
def extractHeadings (html : String) : List String :=
  (tagScanF (fun l => (headingAttempt l).map (fun len => (l.take len, len)))
      (html.data.length + 1) html.data).map
    (fun h => String.mk (stripTags h))

/-- The quoted-attribute tail `attr=["']([^"']+)["']` tried with the class
`[^>]+` bound to `j` characters: consume the attribute literal at offset
`j`, an opening quote, a maximal nonempty run of non-quote characters (the
greedy `[^"']+` is exact: a shorter run would face a non-quote next), and a
closing quote (either kind).  Returns the capture and the length consumed
after the tag literal. -/
def attrCapture (attr : List Char) (r1 : List Char) (j : Nat) : Option (List Char × Nat) :=
  match stripPrefixCI attr (r1.drop j) with
  | none => none
  | some r3 =>
    match r3 with
    | q :: r4 =>
      if isQuote q then
        let content := r4.takeWhile (fun c => !(isQuote c))
        if content.length = 0 then none
        else
          match r4.drop content.length with
          | q2 :: _ =>
            if isQuote q2 then some (content, j + attr.length + 1 + content.length + 1)
            else none
          | [] => none
      else none
    | [] => none

/-- Backtracking of the greedy `[^>]+`: the engine tries the longest class
run first and shortens it one character at a time; the run must be
nonempty. -/
def tagBacktrack (attr : List Char) (r1 : List Char) : Nat → Option (List Char × Nat)
  | 0 => none
  | k + 1 =>
    match attrCapture attr r1 (k + 1) with
    | some res => some res
    | none => tagBacktrack attr r1 k

/-- One attempt of `/<img[^>]+src=["']([^"']+)["']/gi` at the current
position: `(captured src, full match length)`. -/
def imgAttempt (l : List Char) : Option (List Char × Nat) :=
  match stripPrefixCI "<img".data l with
  | none => none
  | some r1 =>
    match tagBacktrack "src=".data r1 ((r1.takeWhile (fun c => c ≠ '>')).length) with
    | some (src, len1) => some (src, 4 + len1)
    | none => none

/-- One attempt of `/<a[^>]+href=["']([^"']+)["']/gi`. -/
def aAttempt (l : List Char) : Option (List Char × Nat) :=
  match stripPrefixCI "<a".data l with
  | none => none
  | some r1 =>
    match tagBacktrack "href=".data r1 ((r1.takeWhile (fun c => c ≠ '>')).length) with
    | some (href, len1) => some (href, 2 + len1)
    | none => none

/-- `extractImages` (worker.ts:231-235): the captures of
`[...html.matchAll(/<img[^>]+src=["']([^"']+)["']/gi)]`. -/
def extractImages (html : String) : List String :=
  (tagScanF imgAttempt (html.data.length + 1) html.data).map String.mk

/-- `extractLinks` (worker.ts:237-241). -/
def extractLinks (html : String) : List String :=
  (tagScanF aAttempt (html.data.length + 1) html.data).map String.mk

/-- The `pageData` object of `analyzeSeoMultiStep` (worker.ts:26-33): the raw
html together with the five extracted features. -/
def extractPageData (html : String) : PageData :=
  { html := html
    title := extractTitle html
    metaDescription := extractMetaDescription html
    headings := extractHeadings html
    images := extractImages html
    links := extractLinks html }

/-- A features value on which none of the conditional recommendations fire:
50-character title, present description, one heading. -/
def fullyRecommendedPd : PageData :=
  { html := ""
    title := String.mk (List.replicate 50 'a')
    metaDescription := "x"
    headings := ["h"]
    images := []
    links := [] }

/-- A features value whose title is 40 characters long: no scoring deficiency
for the title (30 ≤ 40 ≤ 60), yet the title recommendation fires. -/
def midTitlePd : PageData :=
  { html := ""
    title := String.mk (List.replicate 40 'a')
    metaDescription := "ok"
    headings := ["h"]
    images := []
    links := [] }

/-!
JSON serialization.

`analyzeSeoMultiStep` caches `JSON.stringify({ pageData, analysis })` and
the analyze endpoint returns `JSON.parse(cached)` on a hit (worker.ts:72-77,
95-102).  The values serialized on this path are built from strings, the
integral score, arrays, and plain objects, so the JSON value space is
embedded as `Json` below.  `printJson` follows the ECMAScript
`JSON.stringify` output format exactly (no whitespace, two-character
escapes for `"` `\` and the named control characters, `\u00XX` for other
control characters, minimal decimal digits for the score).  `parseF` is a
recursive-descent reading of that grammar (it accepts exactly the
whitespace-free serializations that `stringify` on this value space emits);
the round-trip theorem below shows the serialized form is a faithful,
order-preserving encoding.
-/

/-- JSON values produced on the cache path: strings, naturals (the score is
the only number and lies in [0,100]), arrays and objects with ordered
fields. -/
inductive Json where
  | str : String → Json
  | num : Nat → Json
  | arr : List Json → Json
  | obj : List (String × Json) → Json

/-- The decimal digit character for `n < 10`. -/
def digitChar (n : Nat) : Char := Char.ofNat (48 + n)

/-- Lowercase hexadecimal digit character for `n < 16`, as in the `\u00XX`
escapes `JSON.stringify` emits. -/
def hexDigitChar (n : Nat) : Char :=
  if n < 10 then Char.ofNat (48 + n) else Char.ofNat (87 + n)

/-- `JSON.stringify` escaping of one character inside a string literal. -/
def escChar (c : Char) : List Char :=
  if c = '"' then ['\\', '"']
  else if c = '\\' then ['\\', '\\']
  else if 32 ≤ c.toNat then [c]
  else if c = '\x08' then ['\\', 'b']
  else if c = '\t' then ['\\', 't']
  else if c = '\n' then ['\\', 'n']
  else if c = '\x0c' then ['\\', 'f']
  else if c = '\r' then ['\\', 'r']
  else ['\\', 'u', '0', '0', hexDigitChar (c.toNat / 16), hexDigitChar (c.toNat % 16)]

/-- `JSON.stringify` escaping of a whole string body. -/
def escStr (cs : List Char) : List Char :=
  cs.foldr (fun c acc => escChar c ++ acc) []

/-- Decimal digits of `n`, most significant first; structural in the fuel so
that concrete serializations evaluate. -/
def printNatAux : Nat → Nat → List Char
  | 0, _ => []
  | fuel + 1, n =>
    if n < 10 then [digitChar n]
    else printNatAux fuel (n / 10) ++ [digitChar (n % 10)]

/-- See `printNatAux`; `n + 1` fuel always suffices. -/
def printNat (n : Nat) : List Char := printNatAux (n + 1) n

mutual
/-- `JSON.stringify` of a value, as characters. -/
def printJson : Json → List Char
  | .str s => '"' :: (escStr s.data ++ ['"'])
  | .num n => printNat n
  | .arr l => '[' :: (printItems l ++ [']'])
  | .obj l => '{' :: (printMembers l ++ ['}'])
/-- Array items joined by commas (no trailing comma). -/
def printItems : List Json → List Char
  | [] => []
  | v :: vs => printJson v ++ printArrRest vs
/-- The `,item` tail of an array. -/
def printArrRest : List Json → List Char
  | [] => []
  | v :: vs => ',' :: (printJson v ++ printArrRest vs)
/-- Object members `"key":value` joined by commas. -/
def printMembers : List (String × Json) → List Char
  | [] => []
  | (k, v) :: ms =>
    ('"' :: (escStr k.data ++ ['"', ':'])) ++ printJson v ++ printObjRest ms
/-- The `,"key":value` tail of an object. -/
def printObjRest : List (String × Json) → List Char
  | [] => []
  | (k, v) :: ms =>
    ',' :: (('"' :: (escStr k.data ++ ['"', ':'])) ++ printJson v ++ printObjRest ms)
end

/-- `JSON.stringify`, as a `String`. -/
def stringifyJson (j : Json) : String := String.mk (printJson j)

mutual
/-- Fuel sufficient to parse a printed value (one unit per grammar step). -/
def jweight : Json → Nat
  | .str _ => 1
  | .num _ => 1
  | .arr l => 1 + jweightArr l
  | .obj l => 1 + jweightObj l
/-- See `jweight`. -/
def jweightArr : List Json → Nat
  | [] => 1
  | v :: vs => 1 + jweight v + jweightArr vs
/-- See `jweight`. -/
def jweightObj : List (String × Json) → Nat
  | [] => 1
  | (_, v) :: ms => 1 + jweight v + jweightObj ms
end

/-- ASCII decimal digit test. -/
def isDigitChar (c : Char) : Bool := 48 ≤ c.toNat && c.toNat ≤ 57

/-- Value of a decimal digit character. -/
def digitVal (c : Char) : Nat := c.toNat - 48

/-- Hexadecimal digit test (both cases accepted, as `JSON.parse` does). -/
def isHexChar (c : Char) : Bool :=
  isDigitChar c || (97 ≤ c.toNat && c.toNat ≤ 102) || (65 ≤ c.toNat && c.toNat ≤ 70)

/-- Value of a hexadecimal digit character. -/
def hexVal (c : Char) : Nat :=
  if c.toNat ≤ 57 then c.toNat - 48
  else if c.toNat ≤ 70 then c.toNat - 55
  else c.toNat - 87

/-- Maximal run of decimal digits, accumulating the value. -/
def parseNatAux : List Char → Nat → Nat × List Char
  | [], acc => (acc, [])
  | c :: cs, acc =>
    if isDigitChar c then parseNatAux cs (acc * 10 + digitVal c) else (acc, c :: cs)

/-- The named two-character escapes of JSON string literals. -/
def decodeEsc (e : Char) : Option Char :=
  if e = '"' then some '"'
  else if e = '\\' then some '\\'
  else if e = '/' then some '/'
  else if e = 'b' then some '\x08'
  else if e = 't' then some '\t'
  else if e = 'n' then some '\n'
  else if e = 'f' then some '\x0c'
  else if e = 'r' then some '\r'
  else none

/-- Body of a JSON string literal after the opening quote: characters up to
the closing quote, decoding `\X` and `\uXXXX` escapes; returns the decoded
characters and the input after the closing quote. -/
def parseStringBody : List Char → Option (List Char × List Char)
  | [] => none
  | c :: cs =>
    if c = '"' then some ([], cs)
    else if c = '\\' then
      match cs with
      | [] => none
      | e :: cs' =>
        if e = 'u' then
          match cs' with
          | h1 :: h2 :: h3 :: h4 :: cs'' =>
            if isHexChar h1 && isHexChar h2 && isHexChar h3 && isHexChar h4 then
              (parseStringBody cs'').map (fun p =>
                (Char.ofNat (((hexVal h1 * 16 + hexVal h2) * 16 + hexVal h3) * 16 + hexVal h4)
                  :: p.1, p.2))
            else none
          | _ => none
        else
          match decodeEsc e with
          | some d => (parseStringBody cs').map (fun p => (d :: p.1, p.2))
          | none => none
    else (parseStringBody cs).map (fun p => (c :: p.1, p.2))

/-- Grammar position of the recursive-descent reader: a value, the items of
an array after `[`, the `,item`* tail after an item, and likewise for
objects. -/
inductive ParseMode where
  | val
  | arrFirst
  | arrRest
  | objFirst
  | objRest

/-- Fuel-driven recursive-descent reading of the whitespace-free JSON
grammar that `printJson` emits.  Structural in the fuel. -/
def parseF : Nat → ParseMode → List Char → Option (Json × List Char)
  | 0, _, _ => none
  | fuel + 1, .val, cs =>
    match cs with
    | [] => none
    | c :: cs' =>
      if c = '"' then (parseStringBody cs').map (fun p => (.str (String.mk p.1), p.2))
      else if c = '[' then parseF fuel .arrFirst cs'
      else if c = '{' then parseF fuel .objFirst cs'
      else if isDigitChar c then
        let p := parseNatAux (c :: cs') 0
        some (.num p.1, p.2)
      else none
  | fuel + 1, .arrFirst, cs =>
    match cs with
    | [] => none
    | c :: cs' =>
      if c = ']' then some (.arr [], cs')
      else
        match parseF fuel .val (c :: cs') with
        | none => none
        | some (v, r) =>
          match parseF fuel .arrRest r with
          | some (.arr vs, r') => some (.arr (v :: vs), r')
          | _ => none
  | fuel + 1, .arrRest, cs =>
    match cs with
    | [] => none
    | c :: cs' =>
      if c = ']' then some (.arr [], cs')
      else if c = ',' then
        match parseF fuel .val cs' with
        | none => none
        | some (v, r) =>
          match parseF fuel .arrRest r with
          | some (.arr vs, r') => some (.arr (v :: vs), r')
          | _ => none
      else none
  | fuel + 1, .objFirst, cs =>
    match cs with
    | [] => none
    | c :: cs' =>
      if c = '}' then some (.obj [], cs')
      else if c = '"' then
        match parseStringBody cs' with
        | none => none
        | some (k, r1) =>
          match r1 with
          | [] => none
          | c3 :: r2 =>
            if c3 = ':' then
              match parseF fuel .val r2 with
              | none => none
              | some (v, r3) =>
                match parseF fuel .objRest r3 with
                | some (.obj ms, r4) => some (.obj ((String.mk k, v) :: ms), r4)
                | _ => none
            else none
      else none
  | fuel + 1, .objRest, cs =>
    match cs with
    | [] => none
    | c :: cs' =>
      if c = '}' then some (.obj [], cs')
      else if c = ',' then
        match cs' with
        | c2 :: cs'' =>
          if c2 = '"' then
            match parseStringBody cs'' with
            | none => none
            | some (k, r1) =>
              match r1 with
              | [] => none
              | c3 :: r2 =>
                if c3 = ':' then
                  match parseF fuel .val r2 with
                  | none => none
                  | some (v, r3) =>
                    match parseF fuel .objRest r3 with
                    | some (.obj ms, r4) => some (.obj ((String.mk k, v) :: ms), r4)
                    | _ => none
                else none
          else none
        | [] => none
      else none

/-- `JSON.parse`, restricted to the whitespace-free grammar `JSON.stringify`
emits on this value space (the only strings the cache path parses); the
fuel `2·length + 1` dominates the weight of any value the input prints. -/
def parseJson (s : String) : Option Json :=
  match parseF (2 * s.data.length + 1) .val s.data with
  | some (j, []) => some j
  | _ => none

/-!
Endpoint handlers (worker.ts:84-174) and their collaborators.

Each Cloudflare binding call is a suspension point; the handlers are
embedded as pure functions over collaborator oracles (`Except`-returning
functions: embedding model, vector index, D1, generative model, and the
fetch of the target URL), an explicit KV cache state, and the parsed
request body fields (`Option` models a missing field / `undefined`).  The
`try`/`catch` of each handler maps the first collaborator failure to a 500
response with the error message (`serverErr`), distinct from the 400
client-input rejection (`clientErr`).  Each handler also returns the
ordered trace of collaborator calls it made.
-/

/-- The collaborator calls a handler can make, in invocation order. -/
inductive Collab where
  | cacheRead
  | fetchUrl
  | embed
  | vectorQuery
  | dbRead
  | genText
  | dbWrite
  | cacheWrite
deriving DecidableEq

/-- Metadata of a Vectorize match (`category` omitted: unused by the
handlers); `text` and `source` may be absent. -/
structure VMetadata where
  text : Option String
  source : Option String

/-- One Vectorize match; `metadata` may be absent (`m.metadata?`). -/
structure VMatch where
  metadata : Option VMetadata

/-- JavaScript `x || dflt` for a possibly-undefined string: `undefined` and
the empty string are falsy. -/
def jsStringOr (o : Option String) (dflt : String) : String :=
  match o with
  | none => dflt
  | some s => if s = "" then dflt else s

/-- `ragResults.matches.map((m) => m.metadata?.text || '').filter(Boolean)`
(worker.ts:136-138). -/
def ragTexts (mts : List VMatch) : List String :=
  (mts.map (fun m => jsStringOr (m.metadata.bind VMetadata.text) "")).filter
    (fun s => s != "")

/-- `Array.prototype.join('\n\n')`. -/
def joinSep : List String → String
  | [] => ""
  | [s] => s
  | s :: rest => s ++ "\n\n" ++ joinSep rest

/-- `ragResults.matches.map((m) => m.metadata?.source || 'Unknown').filter(Boolean)`
(worker.ts:168): the sources list of the chat response. -/
def sourceLabels (mts : List VMatch) : List String :=
  (mts.map (fun m => jsStringOr (m.metadata.bind VMetadata.source) "Unknown")).filter
    (fun s => s != "")

/-- A handler response: 200 with a JSON body, a 400 client-input error, or a
500 error carrying the caught message. -/
inductive Resp where
  | ok : Json → Resp
  | clientErr : String → Resp
  | serverErr : String → Resp

/-- Collaborators of the chat endpoint (worker.ts:120-174). -/
structure ChatEnv where
  embed : Option String → Except String Nat
  vquery : Nat → Nat → Except String (List VMatch)
  dbFirst : Option String → Except String (Option String)
  genText : String → Option String → Except String String
  dbRun : Option String → String → Except String Unit

/-- `JSON.stringify({ lastMessage: message })` (worker.ts:164): an
`undefined` field is dropped by `JSON.stringify`. -/
def sessionWriteValue (message : Option String) : String :=
  match message with
  | some m => stringifyJson (.obj [("lastMessage", .str m)])
  | none => stringifyJson (.obj [])

/-- The system prompt of the chat endpoint (worker.ts:151). -/
def chatSystemPrompt (ragContext : String) (history : Option String) : String :=
  "You are an expert SEO consultant. Use this knowledge base to provide accurate advice:\n\n"
    ++ ragContext ++ "\n\nPrevious context: " ++ jsStringOr history "None"

/-- Chat endpoint stages after the embedding call, each returning its own
collaborator trace. -/
def chatAfterEmbed (env : ChatEnv) (message sessionId : Option String) (emb : Nat) :
    Resp × List Collab :=
  match env.vquery emb 5 with
  | .error e => (.serverErr e, [.vectorQuery])
  | .ok mts =>
    let ragContext := joinSep (ragTexts mts)
    match env.dbFirst sessionId with
    | .error e => (.serverErr e, [.vectorQuery, .dbRead])
    | .ok history =>
      match env.genText (chatSystemPrompt ragContext history) message with
      | .error e => (.serverErr e, [.vectorQuery, .dbRead, .genText])
      | .ok resp =>
        match env.dbRun sessionId (sessionWriteValue message) with
        | .error e => (.serverErr e, [.vectorQuery, .dbRead, .genText, .dbWrite])
        | .ok _ =>
          (.ok (.obj [("response", .str resp),
                      ("sources", .arr ((sourceLabels mts).map .str))]),
            [.vectorQuery, .dbRead, .genText, .dbWrite])

/-- The `/api/chat` handler (worker.ts:120-174).  Note: the body is
destructured but `message` is never validated — the embedding collaborator
is invoked first, with the (possibly missing) message. -/
def chatHandler (env : ChatEnv) (message sessionId : Option String) :
    Resp × List Collab :=
  match env.embed message with
  | .error e => (.serverErr e, [.embed])
  | .ok emb =>
    match chatAfterEmbed env message sessionId emb with
    | (r, t) => (r, .embed :: t)

/-- Collaborators of the analyze pipeline (worker.ts:21-80). -/
structure AnalyzeEnv where
  fetch : String → Except String String
  embed : Option String → Except String Nat
  vquery : Nat → Nat → Except String (List VMatch)
  dbRun : String → String → Int → String → Except String Unit

/-- The KV cache as an association list (newest binding first). -/
def KVStore : Type := List (String × String)

/-- `CACHE.get`. -/
def kvGet (kv : KVStore) (k : String) : Option String :=
  (kv.find? (fun p => p.1 == k)).map (fun p => p.2)

/-- `CACHE.put` with the fixed 3600-second TTL (worker.ts:73-77); expiry
itself is the store's concern and is not modelled. -/
def kvPut (kv : KVStore) (k v : String) : KVStore :=
  (k, v) :: kv.filter (fun p => p.1 != k)

/-- The JSON image of `pageData`, in the field order of worker.ts:26-33. -/
def pageDataJson (pd : PageData) : Json :=
  .obj [("html", .str pd.html),
        ("title", .str pd.title),
        ("metaDescription", .str pd.metaDescription),
        ("headings", .arr (pd.headings.map .str)),
        ("images", .arr (pd.images.map .str)),
        ("links", .arr (pd.links.map .str))]

/-- The JSON image of one recommendation. -/
def recommendationJson (r : Recommendation) : Json :=
  .obj [("text", .str r.text), ("priority", .str r.priority)]

/-- The JSON image of the `analysis` object (worker.ts:53-58), in field
order; the score is a non-negative integer. -/
def analysisJson (pd : PageData) (ragContext : String) : Json :=
  .obj [("score", .num (calculateSeoScore pd).toNat),
        ("issues", .arr ((findSeoIssues pd).map .str)),
        ("recommendations", .arr ((generateRecommendations pd).map recommendationJson)),
        ("ragContext", .str ragContext)]

/-- The JSON image of `{ pageData, analysis }` — exactly what
`analyzeSeoMultiStep` serializes into the cache and returns. -/
def analyzeResultJson (pd : PageData) (ragContext : String) : Json :=
  .obj [("pageData", pageDataJson pd), ("analysis", analysisJson pd ragContext)]

/-- A successful analyze response: the `cached` flag, the JSON data, and
the message string (worker.ts:97-112). -/
structure AnalyzeResponse where
  cached : Bool
  data : Json
  message : String

/-- The analyze endpoint's outcome. -/
inductive AnalyzeResult where
  | ok : AnalyzeResponse → AnalyzeResult
  | clientErr : String → AnalyzeResult
  | serverErr : String → AnalyzeResult

/-- The `/api/analyze` handler with `analyzeSeoMultiStep` inlined
(worker.ts:21-117): a falsy `url` — missing or the empty string, as
`if (!url)` tests — is rejected with 400 before any collaborator runs; a cache hit returns `JSON.parse(cached)` verbatim with
`cached: true`; a miss runs fetch → extract → embed → vector query →
rule-based analysis → D1 insert → KV put, and returns the fresh result with
`cached: false`. -/
def analyzeHandler (env : AnalyzeEnv) (kv : KVStore) (url : Option String) :
    AnalyzeResult × KVStore × List Collab :=
  match url with
  | none => (.clientErr "URL is required", kv, [])
  | some u =>
    if u = "" then (.clientErr "URL is required", kv, [])
    else
    match kvGet kv ("analysis:" ++ u) with
    | some cached =>
      match parseJson cached with
      | some j => (.ok ⟨true, j, "Retrieved from cache"⟩, kv, [.cacheRead])
      | none => (.serverErr "Unexpected token in JSON", kv, [.cacheRead])
    | none =>
      match env.fetch u with
      | .error e => (.serverErr e, kv, [.cacheRead, .fetchUrl])
      | .ok html =>
        let pd := extractPageData html
        match env.embed (some ("SEO analysis for: " ++ pd.title ++ ". Meta: "
            ++ pd.metaDescription)) with
        | .error e => (.serverErr e, kv, [.cacheRead, .fetchUrl, .embed])
        | .ok emb =>
          match env.vquery emb 10 with
          | .error e => (.serverErr e, kv, [.cacheRead, .fetchUrl, .embed, .vectorQuery])
          | .ok mts =>
            let ragContext := (joinSep (ragTexts mts)).take 500
            match env.dbRun u (stringifyJson (pageDataJson pd)) (calculateSeoScore pd)
                (stringifyJson (.arr ((generateRecommendations pd).map recommendationJson))) with
            | .error e =>
              (.serverErr e, kv, [.cacheRead, .fetchUrl, .embed, .vectorQuery, .dbWrite])
            | .ok _ =>
              (.ok ⟨false, analyzeResultJson pd ragContext, "Analysis complete"⟩,
                kvPut kv ("analysis:" ++ u) (stringifyJson (analyzeResultJson pd ragContext)),
                [.cacheRead, .fetchUrl, .embed, .vectorQuery, .dbWrite, .cacheWrite])

/-- Two retrieved passages declaring the same source, as the seeded
knowledge corpus actually contains (several entries share the label
`SEO Best Practices`). -/
def dupSourceMatch : VMatch :=
  ⟨some ⟨some "Title tags should be 50-60 characters long.", some "SEO Best Practices"⟩⟩

/-- A chat environment whose embedding collaborator fails (as it would when
handed an undefined message). -/
def chatEnvEmbedFails : ChatEnv :=
  { embed := fun _ => .error "embedding failed"
    vquery := fun _ _ => .error "unreachable"
    dbFirst := fun _ => .error "unreachable"
    genText := fun _ _ => .error "unreachable"
    dbRun := fun _ _ => .error "unreachable" }

/-- An analyze environment whose collaborators all succeed with fixed
values. -/
def analyzeEnvOk : AnalyzeEnv :=
  { fetch := fun _ => .ok ""
    embed := fun _ => .ok 0
    vquery := fun _ _ => .ok []
    dbRun := fun _ _ _ _ => .ok () }

theorem generateRecommendations_eq (pd : PageData) :
    generateRecommendations pd = conditionalRecs pd ++ universalRecs := by
  unfold generateRecommendations conditionalRecs universalRecs
  split_ifs <;> simp

theorem calculateSeoScore_eq (pd : PageData) :
    calculateSeoScore pd =
      max 0 (min 100 (100 - (titlePenalty pd.title + descriptionPenalty pd.metaDescription
        + headingsPenalty pd.headings.length + imagesPenalty pd.images.length
        + linksPenalty pd.links.length))) := by
  unfold calculateSeoScore
  dsimp only
  omega

theorem titlePenalty_nonneg (t : String) : 0 ≤ titlePenalty t := by
  unfold titlePenalty; split_ifs <;> norm_num

theorem titlePenalty_le (t : String) : titlePenalty t ≤ 20 := by
  unfold titlePenalty; split_ifs <;> norm_num

theorem descriptionPenalty_nonneg (d : String) : 0 ≤ descriptionPenalty d := by
  unfold descriptionPenalty; split_ifs <;> norm_num

theorem descriptionPenalty_le (d : String) : descriptionPenalty d ≤ 20 := by
  unfold descriptionPenalty; split_ifs <;> norm_num

theorem headingsPenalty_nonneg (n : Nat) : 0 ≤ headingsPenalty n := by
  unfold headingsPenalty; split_ifs <;> norm_num

theorem headingsPenalty_le (n : Nat) : headingsPenalty n ≤ 15 := by
  unfold headingsPenalty; split_ifs <;> norm_num

theorem imagesPenalty_nonneg (n : Nat) : 0 ≤ imagesPenalty n := by
  unfold imagesPenalty; split_ifs <;> norm_num

theorem imagesPenalty_le (n : Nat) : imagesPenalty n ≤ 10 := by
  unfold imagesPenalty; split_ifs <;> norm_num

theorem linksPenalty_nonneg (n : Nat) : 0 ≤ linksPenalty n := by
  unfold linksPenalty; split_ifs <;> norm_num

theorem linksPenalty_le (n : Nat) : linksPenalty n ≤ 10 := by
  unfold linksPenalty; split_ifs <;> norm_num

/-- The raw (pre-clamp) score is between 25 and 100, so the clamp never
fires and the score is `100` minus the total deduction. -/
theorem calculateSeoScore_eq_of_unclamped (pd : PageData) :
    calculateSeoScore pd =
      100 - (titlePenalty pd.title + descriptionPenalty pd.metaDescription
        + headingsPenalty pd.headings.length + imagesPenalty pd.images.length
        + linksPenalty pd.links.length) := by
  rw [calculateSeoScore_eq]
  have h1 := titlePenalty_nonneg pd.title
  have h2 := titlePenalty_le pd.title
  have h3 := descriptionPenalty_nonneg pd.metaDescription
  have h4 := descriptionPenalty_le pd.metaDescription
  have h5 := headingsPenalty_nonneg pd.headings.length
  have h6 := headingsPenalty_le pd.headings.length
  have h7 := imagesPenalty_nonneg pd.images.length
  have h8 := imagesPenalty_le pd.images.length
  have h9 := linksPenalty_nonneg pd.links.length
  have h10 := linksPenalty_le pd.links.length
  omega

theorem findSeoIssues_eq (pd : PageData) :
    findSeoIssues pd = titleIssues pd.title ++ descriptionIssues pd.metaDescription
      ++ headingIssues pd.headings.length ++ imageIssues pd.images.length
      ++ linkIssues pd.links.length := by
  unfold findSeoIssues
  simp

/-- Two strings differ if their first two characters differ; used to tell
warning/critical issues apart from the informational one even when the tail
of the string is an interpolated length. -/
theorem ne_of_take_two (a x t : String) (h2 : 2 ≤ a.data.length)
    (hne : a.data.take 2 ≠ t.data.take 2) : a ++ x ≠ t := by
  intro h
  apply hne
  rw [← h, String.data_append, List.take_append_of_le_length h2]

theorem titleShortIssue_ne (n : Nat) : titleShortIssue n ≠ noImagesIssue := by
  unfold titleShortIssue
  rw [String.append_assoc]
  exact ne_of_take_two _ _ _ (by decide) (by decide)

theorem titleLongIssue_ne (n : Nat) : titleLongIssue n ≠ noImagesIssue := by
  unfold titleLongIssue
  rw [String.append_assoc]
  exact ne_of_take_two _ _ _ (by decide) (by decide)

theorem descriptionShortIssue_ne (n : Nat) : descriptionShortIssue n ≠ noImagesIssue := by
  unfold descriptionShortIssue
  rw [String.append_assoc]
  exact ne_of_take_two _ _ _ (by decide) (by decide)

theorem descriptionLongIssue_ne (n : Nat) : descriptionLongIssue n ≠ noImagesIssue := by
  unfold descriptionLongIssue
  rw [String.append_assoc]
  exact ne_of_take_two _ _ _ (by decide) (by decide)

theorem manyImagesIssue_ne (n : Nat) : manyImagesIssue n ≠ noImagesIssue := by
  unfold manyImagesIssue
  rw [String.append_assoc]
  exact ne_of_take_two _ _ _ (by decide) (by decide)

theorem titlePenalty_zero_iff (t : String) : titlePenalty t = 0 ↔ titleIssues t = [] := by
  unfold titlePenalty titleIssues
  split_ifs <;> simp

theorem descriptionPenalty_zero_iff (d : String) :
    descriptionPenalty d = 0 ↔ descriptionIssues d = [] := by
  unfold descriptionPenalty descriptionIssues
  split_ifs <;> simp

theorem headingsPenalty_zero_iff (n : Nat) : headingsPenalty n = 0 ↔ headingIssues n = [] := by
  unfold headingsPenalty headingIssues
  split_ifs <;> simp

theorem linksPenalty_zero_iff (n : Nat) : linksPenalty n = 0 ↔ linkIssues n = [] := by
  unfold linksPenalty linkIssues
  split_ifs <;> simp

theorem imagesPenalty_zero_iff (n : Nat) :
    imagesPenalty n = 0 ↔ (imageIssues n = [] ∨ imageIssues n = [noImagesIssue]) := by
  unfold imagesPenalty imageIssues
  split_ifs <;> simp_all
  exact manyImagesIssue_ne n

theorem titleIssues_singleton (t : String) (h : titlePenalty t ≠ 0) :
    ∃ x, titleIssues t = [x] ∧ x ≠ noImagesIssue := by
  unfold titlePenalty at h
  unfold titleIssues
  split_ifs at h ⊢ <;> first
    | omega
    | exact ⟨_, rfl, by decide⟩
    | exact ⟨_, rfl, titleShortIssue_ne _⟩
    | exact ⟨_, rfl, titleLongIssue_ne _⟩

theorem descriptionIssues_singleton (d : String) (h : descriptionPenalty d ≠ 0) :
    ∃ x, descriptionIssues d = [x] ∧ x ≠ noImagesIssue := by
  unfold descriptionPenalty at h
  unfold descriptionIssues
  split_ifs at h ⊢ <;> first
    | omega
    | exact ⟨_, rfl, by decide⟩
    | exact ⟨_, rfl, descriptionShortIssue_ne _⟩
    | exact ⟨_, rfl, descriptionLongIssue_ne _⟩

theorem headingIssues_singleton (n : Nat) (h : headingsPenalty n ≠ 0) :
    ∃ x, headingIssues n = [x] ∧ x ≠ noImagesIssue := by
  unfold headingsPenalty at h
  unfold headingIssues
  split_ifs at h ⊢ <;> first
    | omega
    | exact ⟨_, rfl, by decide⟩

theorem imageIssues_singleton (n : Nat) (h : imagesPenalty n ≠ 0) :
    ∃ x, imageIssues n = [x] ∧ x ≠ noImagesIssue := by
  unfold imagesPenalty at h
  unfold imageIssues
  split_ifs at h ⊢ <;> first
    | omega
    | exact ⟨_, rfl, manyImagesIssue_ne _⟩

theorem linkIssues_singleton (n : Nat) (h : linksPenalty n ≠ 0) :
    ∃ x, linkIssues n = [x] ∧ x ≠ noImagesIssue := by
  unfold linksPenalty at h
  unfold linkIssues
  split_ifs at h ⊢ <;> first
    | omega
    | exact ⟨_, rfl, by decide⟩

theorem titleIssues_length (t : String) :
    (titleIssues t).length = if titlePenalty t = 0 then 0 else 1 := by
  unfold titleIssues titlePenalty
  split_ifs <;> simp_all

theorem descriptionIssues_length (d : String) :
    (descriptionIssues d).length = if descriptionPenalty d = 0 then 0 else 1 := by
  unfold descriptionIssues descriptionPenalty
  split_ifs <;> simp_all

theorem headingIssues_length (n : Nat) :
    (headingIssues n).length = if headingsPenalty n = 0 then 0 else 1 := by
  unfold headingIssues headingsPenalty
  split_ifs <;> simp_all

theorem imageIssues_length (n : Nat) :
    (imageIssues n).length
      = (if imagesPenalty n = 0 then 0 else 1) + (if n = 0 then 1 else 0) := by
  unfold imageIssues imagesPenalty
  split_ifs <;> simp_all

theorem linkIssues_length (n : Nat) :
    (linkIssues n).length = if linksPenalty n = 0 then 0 else 1 := by
  unfold linkIssues linksPenalty
  split_ifs <;> simp_all

/-- Claim C10: for every features value, `calculateSeoScore` returns 100 iff
`findSeoIssues` returns no critical or warning issue (the list is empty or
is exactly the informational zero-images issue); each penalty branch is
mirrored by exactly one issue under the same threshold condition (stated as
a length count); and the score never falls below 25, so the floor-at-0 clamp
is unreachable. -/
theorem C10_perfect_score_iff_no_issues (pd : PageData) :
    (calculateSeoScore pd = 100 ↔
      (findSeoIssues pd = [] ∨ findSeoIssues pd = [noImagesIssue]))
    ∧ 25 ≤ calculateSeoScore pd
    ∧ (findSeoIssues pd).length =
        ((if titlePenalty pd.title = 0 then 0 else 1)
          + (if descriptionPenalty pd.metaDescription = 0 then 0 else 1)
          + (if headingsPenalty pd.headings.length = 0 then 0 else 1)
          + (if imagesPenalty pd.images.length = 0 then 0 else 1)
          + (if linksPenalty pd.links.length = 0 then 0 else 1)
          + (if pd.images.length = 0 then 1 else 0)) := by
  have hb1 := titlePenalty_nonneg pd.title
  have hb2 := titlePenalty_le pd.title
  have hb3 := descriptionPenalty_nonneg pd.metaDescription
  have hb4 := descriptionPenalty_le pd.metaDescription
  have hb5 := headingsPenalty_nonneg pd.headings.length
  have hb6 := headingsPenalty_le pd.headings.length
  have hb7 := imagesPenalty_nonneg pd.images.length
  have hb8 := imagesPenalty_le pd.images.length
  have hb9 := linksPenalty_nonneg pd.links.length
  have hb10 := linksPenalty_le pd.links.length
  have hscore := calculateSeoScore_eq_of_unclamped pd
  refine ⟨⟨?_, ?_⟩, by omega, ?_⟩
  · intro h
    have h1 : titlePenalty pd.title = 0 := by omega
    have h2 : descriptionPenalty pd.metaDescription = 0 := by omega
    have h3 : headingsPenalty pd.headings.length = 0 := by omega
    have h4 : imagesPenalty pd.images.length = 0 := by omega
    have h5 : linksPenalty pd.links.length = 0 := by omega
    rw [findSeoIssues_eq, (titlePenalty_zero_iff _).mp h1,
      (descriptionPenalty_zero_iff _).mp h2, (headingsPenalty_zero_iff _).mp h3,
      (linksPenalty_zero_iff _).mp h5]
    rcases (imagesPenalty_zero_iff _).mp h4 with hi | hi <;> rw [hi] <;> simp
  · intro h
    have ht : titlePenalty pd.title = 0 := by
      by_contra hne
      obtain ⟨x, hx, hxne⟩ := titleIssues_singleton _ hne
      have hmem : x ∈ findSeoIssues pd := by
        rw [findSeoIssues_eq, hx]; simp
      rcases h with h | h <;> rw [h] at hmem <;> simp at hmem
      exact hxne hmem
    have hd : descriptionPenalty pd.metaDescription = 0 := by
      by_contra hne
      obtain ⟨x, hx, hxne⟩ := descriptionIssues_singleton _ hne
      have hmem : x ∈ findSeoIssues pd := by
        rw [findSeoIssues_eq, hx]; simp
      rcases h with h | h <;> rw [h] at hmem <;> simp at hmem
      exact hxne hmem
    have hh : headingsPenalty pd.headings.length = 0 := by
      by_contra hne
      obtain ⟨x, hx, hxne⟩ := headingIssues_singleton _ hne
      have hmem : x ∈ findSeoIssues pd := by
        rw [findSeoIssues_eq, hx]; simp
      rcases h with h | h <;> rw [h] at hmem <;> simp at hmem
      exact hxne hmem
    have hi : imagesPenalty pd.images.length = 0 := by
      by_contra hne
      obtain ⟨x, hx, hxne⟩ := imageIssues_singleton _ hne
      have hmem : x ∈ findSeoIssues pd := by
        rw [findSeoIssues_eq, hx]; simp
      rcases h with h | h <;> rw [h] at hmem <;> simp at hmem
      exact hxne hmem
    have hl : linksPenalty pd.links.length = 0 := by
      by_contra hne
      obtain ⟨x, hx, hxne⟩ := linkIssues_singleton _ hne
      have hmem : x ∈ findSeoIssues pd := by
        rw [findSeoIssues_eq, hx]; simp
      rcases h with h | h <;> rw [h] at hmem <;> simp at hmem
      exact hxne hmem
    omega
  · rw [findSeoIssues_eq]
    simp only [List.length_append, titleIssues_length, descriptionIssues_length,
      headingIssues_length, imageIssues_length, linkIssues_length]
    omega

/-- Claim C1 counterexample: no 7-element block is a suffix of every
`generateRecommendations` output — the universal block the code appends has
only 6 entries, so on a features value with no conditional recommendation
the whole output has length 6. -/
theorem C1_counterexample :
    ¬ ∃ u : List Recommendation, u.length = 7 ∧
        ∀ pd : PageData, ∃ c, generateRecommendations pd = c ++ u := by
  rintro ⟨u, hlen, hall⟩
  obtain ⟨c, hc⟩ := hall fullyRecommendedPd
  have h6 : (generateRecommendations fullyRecommendedPd).length = 6 := by decide
  rw [hc] at h6
  simp [hlen] at h6

/-- Claim C1 (amended): every `generateRecommendations` output ends with the
same fixed block of exactly SIX universal entries, placed after any
conditional entries, with priorities images→Medium, page-speed→Medium,
internal-linking→Medium, mobile→Medium, https→Low, sitemap→Low. -/
theorem C1_universal_suffix (pd : PageData) :
    ∃ c, generateRecommendations pd = c ++ universalRecs
      ∧ universalRecs.length = 6
      ∧ universalRecs.map Recommendation.priority
          = ["Medium", "Medium", "Medium", "Medium", "Low", "Low"] :=
  ⟨conditionalRecs pd, generateRecommendations_eq pd, by decide, by decide⟩

/-- Claim C2 counterexample: on a 40-character title the title recommendation
is emitted although the title scoring deficiency (missing, shorter than 30,
or longer than 60) did not trigger — the code's recommendation threshold is
`length < 50`, not the scoring thresholds. -/
theorem C2_counterexample :
    titleRec ∈ generateRecommendations midTitlePd
    ∧ ¬ (midTitlePd.title = "" ∨ midTitlePd.title = noTitleSentinel
          ∨ midTitlePd.title.length < 30 ∨ midTitlePd.title.length > 60) := by
  constructor
  · decide
  · decide

/-- Claim C2 (amended): the conditional recommendations, each tagged High,
precede the universal block, and each appears exactly under the code's own
trigger: the title one iff the title is missing, the sentinel, or shorter
than 50 characters (not the scoring thresholds 30/60); the description one
iff the description is missing; the headings one iff there are no
headings. -/
theorem C2_conditional_triggers (pd : PageData) :
    (titleRec ∈ generateRecommendations pd ↔
        pd.title = "" ∨ pd.title = noTitleSentinel ∨ pd.title.length < 50)
    ∧ (descriptionRec ∈ generateRecommendations pd ↔
        pd.metaDescription = "" ∨ pd.metaDescription = noMetaSentinel)
    ∧ (headingsRec ∈ generateRecommendations pd ↔ pd.headings.length = 0)
    ∧ generateRecommendations pd = conditionalRecs pd ++ universalRecs
    ∧ (∀ r ∈ conditionalRecs pd, r.priority = "High") := by
  have hT : titleRec ∉ universalRecs := by decide
  have hD : descriptionRec ∉ universalRecs := by decide
  have hH : headingsRec ∉ universalRecs := by decide
  have hTD : titleRec ≠ descriptionRec := by decide
  have hTH : titleRec ≠ headingsRec := by decide
  have hDH : descriptionRec ≠ headingsRec := by decide
  refine ⟨?_, ?_, ?_, generateRecommendations_eq pd, ?_⟩
  · rw [generateRecommendations_eq]
    unfold conditionalRecs
    constructor
    · intro h
      rcases List.mem_append.mp h with h | h
      · rcases List.mem_append.mp h with h | h
        · rcases List.mem_append.mp h with h | h
          · split_ifs at h with hc
            · exact hc
            · simp at h
          · split_ifs at h <;> simp at h <;> exact absurd h hTD
        · split_ifs at h <;> simp at h <;> exact absurd h hTH
      · exact absurd h hT
    · intro hc
      apply List.mem_append_left
      apply List.mem_append_left
      apply List.mem_append_left
      rw [if_pos hc]
      simp
  · rw [generateRecommendations_eq]
    unfold conditionalRecs
    constructor
    · intro h
      rcases List.mem_append.mp h with h | h
      · rcases List.mem_append.mp h with h | h
        · rcases List.mem_append.mp h with h | h
          · split_ifs at h <;> simp at h <;> exact absurd h.symm hTD
          · split_ifs at h with hc
            · exact hc
            · simp at h
        · split_ifs at h <;> simp at h <;> exact absurd h hDH
      · exact absurd h hD
    · intro hc
      apply List.mem_append_left
      apply List.mem_append_left
      apply List.mem_append_right
      rw [if_pos hc]
      simp
  · rw [generateRecommendations_eq]
    unfold conditionalRecs
    constructor
    · intro h
      rcases List.mem_append.mp h with h | h
      · rcases List.mem_append.mp h with h | h
        · rcases List.mem_append.mp h with h | h
          · split_ifs at h <;> simp at h <;> exact absurd h.symm hTH
          · split_ifs at h <;> simp at h <;> exact absurd h.symm hDH
        · split_ifs at h with hc
          · exact hc
          · simp at h
      · exact absurd h hH
    · intro hc
      apply List.mem_append_left
      apply List.mem_append_right
      rw [if_pos hc]
      simp
  · intro r hr
    unfold conditionalRecs at hr
    rcases List.mem_append.mp hr with h | h
    · rcases List.mem_append.mp h with h | h
      · split_ifs at h <;> simp at h <;> subst h <;> rfl
      · split_ifs at h <;> simp at h <;> subst h <;> rfl
    · split_ifs at h <;> simp at h <;> subst h <;> rfl

/-- Claim C7: a present title of exactly 60 characters incurs no length
penalty while 61 characters incurs the 10-point too-long penalty, and a
present meta description of exactly 160 characters incurs no penalty while
161 incurs the 10-point too-long penalty; the clause penalties are exactly
what `calculateSeoScore` subtracts from 100 before clamping. -/
theorem C7_length_boundaries :
    (∀ t : String, t.length = 60 → titlePenalty t = 0)
    ∧ (∀ t : String, t.length = 61 → titlePenalty t = 10)
    ∧ (∀ d : String, d.length = 160 → descriptionPenalty d = 0)
    ∧ (∀ d : String, d.length = 161 → descriptionPenalty d = 10)
    ∧ ∀ pd : PageData, calculateSeoScore pd =
        max 0 (min 100 (100 - (titlePenalty pd.title + descriptionPenalty pd.metaDescription
          + headingsPenalty pd.headings.length + imagesPenalty pd.images.length
          + linksPenalty pd.links.length))) := by
  refine ⟨?_, ?_, ?_, ?_, calculateSeoScore_eq⟩
  · intro t ht
    unfold titlePenalty
    rw [if_neg (by rintro (rfl | rfl) <;> revert ht <;> decide),
      if_neg (by omega), if_neg (by omega)]
  · intro t ht
    unfold titlePenalty
    rw [if_neg (by rintro (rfl | rfl) <;> revert ht <;> decide),
      if_neg (by omega), if_pos (by omega)]
  · intro d hd
    unfold descriptionPenalty
    rw [if_neg (by rintro (rfl | rfl) <;> revert hd <;> decide),
      if_neg (by omega), if_neg (by omega)]
  · intro d hd
    unfold descriptionPenalty
    rw [if_neg (by rintro (rfl | rfl) <;> revert hd <;> decide),
      if_neg (by omega), if_pos (by omega)]

/-- Witness for `C7_length_boundaries` at concrete 60/61/160/161-character
strings. -/
theorem C7_length_boundaries_witness :
    titlePenalty (String.mk (List.replicate 60 'a')) = 0
    ∧ titlePenalty (String.mk (List.replicate 61 'a')) = 10
    ∧ descriptionPenalty (String.mk (List.replicate 160 'a')) = 0
    ∧ descriptionPenalty (String.mk (List.replicate 161 'a')) = 10 :=
  ⟨C7_length_boundaries.1 _ (by decide),
   C7_length_boundaries.2.1 _ (by decide),
   C7_length_boundaries.2.2.1 _ (by decide),
   C7_length_boundaries.2.2.2.1 _ (by decide)⟩

theorem startsWithCI_nil_eq_false (pat : List Char) (h : pat ≠ []) :
    startsWithCI pat [] = false := by
  cases pat with
  | nil => exact absurd rfl h
  | cons p ps => rfl

theorem titleCloseAt_nil (n : Nat) : ¬ titleCloseAt [] n := by
  intro h
  rw [titleCloseAt, List.drop_nil] at h
  rw [startsWithCI_nil_eq_false titleCloseTag (by decide)] at h
  exact Bool.false_ne_true h

/-- Soundness of the lazy close-tag scan: a returned content is the exact
prefix before the first close tag, every content character is
non-terminator, and no earlier close tag exists. -/
theorem titleClose_sound (ds : List Char) (co : List Char) (h : titleClose ds = some co) :
    co = ds.take co.length
    ∧ titleCloseAt ds co.length
    ∧ (∀ k, k < co.length → ∃ c, (ds.drop k).head? = some c ∧ isLineTerminator c = false)
    ∧ (∀ k, k < co.length → ¬ titleCloseAt ds k) := by
  induction ds generalizing co with
  | nil => simp [titleClose] at h
  | cons c cs ih =>
    rw [titleClose] at h
    by_cases h1 : startsWithCI titleCloseTag (c :: cs) = true
    · rw [if_pos h1] at h
      cases h
      refine ⟨rfl, h1, ?_, ?_⟩ <;> intro k hk <;> exact absurd hk (Nat.not_lt_zero k)
    · rw [if_neg h1] at h
      by_cases h2 : isLineTerminator c = true
      · rw [if_pos h2] at h
        exact absurd h (by simp)
      · rw [if_neg h2] at h
        obtain ⟨co', hco', rfl⟩ := Option.map_eq_some'.mp h
        obtain ⟨ih1, ih2, ih3, ih4⟩ := ih co' hco'
        refine ⟨?_, ?_, ?_, ?_⟩
        · simpa [List.take_succ_cons] using ih1
        · rw [titleCloseAt, List.length_cons, List.drop_succ_cons]
          exact ih2
        · intro k hk
          match k with
          | 0 => exact ⟨c, rfl, Bool.not_eq_true _ ▸ h2⟩
          | m + 1 =>
            rw [List.drop_succ_cons]
            exact ih3 m (by simpa using hk)
        · intro k hk
          match k with
          | 0 => exact fun hc => h1 hc
          | m + 1 =>
            rw [titleCloseAt, List.drop_succ_cons]
            exact ih4 m (by simpa using hk)

/-- If the lazy close-tag scan fails, every close tag is preceded by a line
terminator in the content region. -/
theorem titleClose_none (ds : List Char) (h : titleClose ds = none) :
    ∀ n, titleCloseAt ds n →
      ∃ k, k < n ∧ ∀ c, (ds.drop k).head? = some c → isLineTerminator c = true := by
  induction ds with
  | nil => exact fun n hn => absurd hn (titleCloseAt_nil n)
  | cons c cs ih =>
    intro n hn
    rw [titleClose] at h
    by_cases h1 : startsWithCI titleCloseTag (c :: cs) = true
    · rw [if_pos h1] at h
      exact absurd h (by simp)
    · rw [if_neg h1] at h
      match n with
      | 0 => exact absurd hn h1
      | m + 1 =>
        rw [titleCloseAt, List.drop_succ_cons] at hn
        by_cases h2 : isLineTerminator c = true
        · exact ⟨0, Nat.succ_pos m, fun d hd => by cases hd; exact h2⟩
        · rw [if_neg h2] at h
          have hcs : titleClose cs = none := by
            cases hcl : titleClose cs with
            | none => rfl
            | some v => rw [hcl] at h; exact absurd h (by simp)
          obtain ⟨k, hk, hterm⟩ := ih hcs m hn
          exact ⟨k + 1, by omega, by rw [List.drop_succ_cons]; exact hterm⟩

/-- Completeness of the lazy close-tag scan: a clean, minimal close position
is found, and the content is the prefix before it. -/
theorem titleClose_exact (ds : List Char) (n : Nat) (hclose : titleCloseAt ds n)
    (hclean : ∀ k, k < n → ∃ c, (ds.drop k).head? = some c ∧ isLineTerminator c = false)
    (hmin : ∀ k, k < n → ¬ titleCloseAt ds k) :
    titleClose ds = some (ds.take n) := by
  induction ds generalizing n with
  | nil => exact absurd hclose (titleCloseAt_nil n)
  | cons c cs ih =>
    rw [titleClose]
    match n with
    | 0 =>
      have h0 : startsWithCI titleCloseTag (c :: cs) = true := hclose
      rw [if_pos h0]
      rfl
    | m + 1 =>
      have h1 : ¬ startsWithCI titleCloseTag (c :: cs) = true := hmin 0 (Nat.succ_pos m)
      rw [if_neg h1]
      have h2 : isLineTerminator c = false := by
        obtain ⟨d, hd, hterm⟩ := hclean 0 (Nat.succ_pos m)
        cases hd
        exact hterm
      rw [if_neg (by simp [h2])]
      rw [titleCloseAt, List.drop_succ_cons] at hclose
      have ihr := ih m hclose
        (fun k hk => by
          have := hclean (k + 1) (by omega)
          rwa [List.drop_succ_cons] at this)
        (fun k hk => by
          have := hmin (k + 1) (by omega)
          rwa [titleCloseAt, List.drop_succ_cons] at this)
      rw [ihr]
      rfl

/-- From an open tag at `i` and a successful lazy close scan of the rest, a
complete regex match. -/
theorem titlePairAt_of_close_some (cs : List Char) (i : Nat) (co : List Char)
    (hopen : titleOpenAt cs i) (h : titleClose (cs.drop (i + 7)) = some co) :
    titlePairAt cs i (i + 7 + co.length) := by
  obtain ⟨_, h2, h3, _⟩ := titleClose_sound _ _ h
  refine ⟨hopen, ?_, by omega, ?_⟩
  · rw [titleCloseAt, List.drop_drop] at h2
    rw [titleCloseAt]
    exact h2
  · intro k hk1 hk2
    obtain ⟨c, hc, hterm⟩ := h3 (k - (i + 7)) (by omega)
    refine ⟨c, ?_, hterm⟩
    rw [List.drop_drop] at hc
    have harith : i + 7 + (k - (i + 7)) = k := by omega
    rwa [harith] at hc

/-- Soundness of the leftmost scan: a hit comes from some open position with
a successful close, all earlier open positions having failed closes. -/
theorem titleScan_sound (ds : List Char) (co : List Char) (h : titleScan ds = some co) :
    ∃ i, titleOpenAt ds i ∧ titleClose (ds.drop (i + 7)) = some co
      ∧ ∀ p, p < i → titleOpenAt ds p → titleClose (ds.drop (p + 7)) = none := by
  induction ds generalizing co with
  | nil => simp [titleScan] at h
  | cons c cs ih =>
    rw [titleScan] at h
    by_cases h1 : startsWithCI titleOpen (c :: cs) = true
    · rw [if_pos h1] at h
      cases hcl : titleClose ((c :: cs).drop 7) with
      | some content =>
        rw [hcl] at h
        cases h
        exact ⟨0, h1, by simpa using hcl, fun p hp => absurd hp (Nat.not_lt_zero p)⟩
      | none =>
        rw [hcl] at h
        obtain ⟨i, hi1, hi2, hi3⟩ := ih co h
        refine ⟨i + 1, ?_, ?_, ?_⟩
        · rwa [titleOpenAt, List.drop_succ_cons]
        · have harith : i + 1 + 7 = (i + 7) + 1 := by omega
          rwa [harith, List.drop_succ_cons]
        · intro p hp hop
          match p with
          | 0 => simpa using hcl
          | q + 1 =>
            rw [titleOpenAt, List.drop_succ_cons] at hop
            have harith : q + 1 + 7 = (q + 7) + 1 := by omega
            rw [harith, List.drop_succ_cons]
            exact hi3 q (by omega) hop
    · rw [if_neg h1] at h
      obtain ⟨i, hi1, hi2, hi3⟩ := ih co h
      refine ⟨i + 1, ?_, ?_, ?_⟩
      · rwa [titleOpenAt, List.drop_succ_cons]
      · have harith : i + 1 + 7 = (i + 7) + 1 := by omega
        rwa [harith, List.drop_succ_cons]
      · intro p hp hop
        match p with
        | 0 => exact absurd hop h1
        | q + 1 =>
          rw [titleOpenAt, List.drop_succ_cons] at hop
          have harith : q + 1 + 7 = (q + 7) + 1 := by omega
          rw [harith, List.drop_succ_cons]
          exact hi3 q (by omega) hop

/-- If the leftmost scan fails, every open position has a failing close. -/
theorem titleScan_none (ds : List Char) (h : titleScan ds = none) :
    ∀ i, titleOpenAt ds i → titleClose (ds.drop (i + 7)) = none := by
  induction ds with
  | nil =>
    intro i hi
    rw [titleOpenAt, List.drop_nil] at hi
    rw [startsWithCI_nil_eq_false titleOpen (by decide)] at hi
    exact absurd hi (by simp)
  | cons c cs ih =>
    intro i hi
    rw [titleScan] at h
    by_cases h1 : startsWithCI titleOpen (c :: cs) = true
    · rw [if_pos h1] at h
      cases hcl : titleClose ((c :: cs).drop 7) with
      | some content => rw [hcl] at h; exact absurd h (by simp)
      | none =>
        rw [hcl] at h
        match i with
        | 0 => simpa using hcl
        | q + 1 =>
          rw [titleOpenAt, List.drop_succ_cons] at hi
          have harith : q + 1 + 7 = (q + 7) + 1 := by omega
          rw [harith, List.drop_succ_cons]
          exact ih h q hi
    · rw [if_neg h1] at h
      match i with
      | 0 => exact absurd hi h1
      | q + 1 =>
        rw [titleOpenAt, List.drop_succ_cons] at hi
        have harith : q + 1 + 7 = (q + 7) + 1 := by omega
        rw [harith, List.drop_succ_cons]
        exact ih h q hi

/-- Completeness of the leftmost scan. -/
theorem titleScan_exact (ds : List Char) (i : Nat) (co : List Char)
    (hopen : titleOpenAt ds i) (hclose : titleClose (ds.drop (i + 7)) = some co)
    (hmin : ∀ p, p < i → titleOpenAt ds p → titleClose (ds.drop (p + 7)) = none) :
    titleScan ds = some co := by
  induction ds generalizing i with
  | nil =>
    rw [titleOpenAt, List.drop_nil] at hopen
    rw [startsWithCI_nil_eq_false titleOpen (by decide)] at hopen
    exact absurd hopen (by simp)
  | cons c cs ih =>
    rw [titleScan]
    match i with
    | 0 =>
      have h0 : startsWithCI titleOpen (c :: cs) = true := hopen
      rw [if_pos h0]
      rw [show titleClose ((c :: cs).drop 7) = some co from by simpa using hclose]
    | q + 1 =>
      rw [titleOpenAt, List.drop_succ_cons] at hopen
      have harith : q + 1 + 7 = (q + 7) + 1 := by omega
      rw [harith, List.drop_succ_cons] at hclose
      by_cases h1 : startsWithCI titleOpen (c :: cs) = true
      · rw [if_pos h1]
        have h0 : titleClose ((c :: cs).drop 7) = none := by
          simpa using hmin 0 (by omega) h1
        rw [h0]
        exact ih q hopen hclose (fun p hp hop => by
          have := hmin (p + 1) (by omega) (by rwa [titleOpenAt, List.drop_succ_cons])
          have harith2 : p + 1 + 7 = (p + 7) + 1 := by omega
          rwa [harith2, List.drop_succ_cons] at this)
      · rw [if_neg h1]
        exact ih q hopen hclose (fun p hp hop => by
          have := hmin (p + 1) (by omega) (by rwa [titleOpenAt, List.drop_succ_cons])
          have harith2 : p + 1 + 7 = (p + 7) + 1 := by omega
          rwa [harith2, List.drop_succ_cons] at this)

theorem titleScan_eq_none_of_no_open (ds : List Char) (h : hasTitleOpen ds = false) :
    titleScan ds = none := by
  induction ds with
  | nil => rfl
  | cons c cs ih =>
    rw [hasTitleOpen, Bool.or_eq_false_iff] at h
    rw [titleScan, if_neg (by simp [h.1]), ih h.2]

/-- Claim C9 (amended): `extractTitle` is characterized by the leftmost lazy
match of `/<title>(.*?)<\/title>/i`: if no complete match exists (open tag,
close tag, and no line terminator between them) the sentinel is returned,
and the leftmost such match — minimal open position, then minimal close
position — yields exactly the captured content.  In particular a `<title>`
element whose content spans a line break is NOT extracted, so the result is
not always “the first `<title>` element's text content”. -/
theorem C9_title_extraction (html : String) :
    ((∀ i j, ¬ titlePairAt html.data i j) → extractTitle html = noTitleSentinel)
    ∧ (∀ i j, titlePairAt html.data i j →
        (∀ p q, p < i → ¬ titlePairAt html.data p q) →
        (∀ q, q < j → ¬ titlePairAt html.data i q) →
        extractTitle html = String.mk ((html.data.drop (i + 7)).take (j - (i + 7)))) := by
  constructor
  · intro hno
    rw [extractTitle]
    cases hscan : titleScan html.data with
    | none => rfl
    | some co =>
      obtain ⟨i, hopen, hclose, _⟩ := titleScan_sound _ _ hscan
      exact absurd (titlePairAt_of_close_some _ _ _ hopen hclose) (hno i (i + 7 + co.length))
  · intro i j hpair hmini hminj
    obtain ⟨hopen, hcloseg, hij, hcleang⟩ := hpair
    have hclose : titleCloseAt (html.data.drop (i + 7)) (j - (i + 7)) := by
      rw [titleCloseAt, List.drop_drop]
      have harith : i + 7 + (j - (i + 7)) = j := by omega
      rw [harith]
      exact hcloseg
    have hclean : ∀ k, k < j - (i + 7) →
        ∃ c, ((html.data.drop (i + 7)).drop k).head? = some c ∧ isLineTerminator c = false := by
      intro k hk
      obtain ⟨c, hc, hterm⟩ := hcleang (i + 7 + k) (by omega) (by omega)
      refine ⟨c, ?_, hterm⟩
      rw [List.drop_drop]
      exact hc
    have hminc : ∀ k, k < j - (i + 7) → ¬ titleCloseAt (html.data.drop (i + 7)) k := by
      intro k hk hcl
      apply hminj (i + 7 + k) (by omega)
      refine ⟨hopen, ?_, by omega, ?_⟩
      · rw [titleCloseAt, List.drop_drop] at hcl
        rw [titleCloseAt]
        exact hcl
      · intro m hm1 hm2
        exact hcleang m hm1 (by omega)
    have hlocal : titleClose (html.data.drop (i + 7))
        = some ((html.data.drop (i + 7)).take (j - (i + 7))) :=
      titleClose_exact _ _ hclose hclean hminc
    have hearlier : ∀ p, p < i → titleOpenAt html.data p →
        titleClose (html.data.drop (p + 7)) = none := by
      intro p hp hop
      cases hcl : titleClose (html.data.drop (p + 7)) with
      | none => rfl
      | some co =>
        exact absurd (titlePairAt_of_close_some _ _ _ hop hcl)
          (hmini p (p + 7 + co.length) hp)
    have hscan := titleScan_exact html.data i _ hopen hlocal hearlier
    rw [extractTitle, hscan]

/-- Witness for `C9_title_extraction` on `<title>Hi</title>`: the pair
(0, 9) is the leftmost minimal match and the extracted title is `Hi`. -/
theorem C9_title_extraction_witness :
    titlePairAt "<title>Hi</title>".data 0 9
    ∧ extractTitle "<title>Hi</title>"
        = String.mk (("<title>Hi</title>".data.drop (0 + 7)).take (9 - (0 + 7))) := by
  have hpair : titlePairAt "<title>Hi</title>".data 0 9 := by
    refine ⟨?_, ?_, by omega, ?_⟩
    · show startsWithCI titleOpen ("<title>Hi</title>".data.drop 0) = true
      decide
    · show startsWithCI titleCloseTag ("<title>Hi</title>".data.drop 9) = true
      decide
    · intro k hk1 hk2
      interval_cases k
      · exact ⟨'H', by decide, by decide⟩
      · exact ⟨'i', by decide, by decide⟩
  refine ⟨hpair, (C9_title_extraction "<title>Hi</title>").2 0 9 hpair ?_ ?_⟩
  · intro p q hp
    exact absurd hp (Nat.not_lt_zero p)
  · rintro q hq ⟨_, hcl, hge, _⟩
    interval_cases q
    · exact absurd
        (show startsWithCI titleCloseTag ("<title>Hi</title>".data.drop 7) = true from hcl)
        (by decide)
    · exact absurd
        (show startsWithCI titleCloseTag ("<title>Hi</title>".data.drop 8) = true from hcl)
        (by decide)

/-- Claim C9 counterexample: on `<title>a\nb</title>` the document's first
(and only) `<title>` element has text content `a\nb`, but `extractTitle`
returns the sentinel, because `.` in the source regex does not match a line
terminator. -/
theorem C9_counterexample :
    extractTitle "<title>a\nb</title>" = noTitleSentinel
    ∧ firstTitleElementSpec "<title>a\nb</title>" = some "a\nb"
    ∧ noTitleSentinel ≠ "a\nb" := by
  refine ⟨by decide, by decide, by decide⟩

/-- Claim C6: HTML with no `<title>` open tag extracts the sentinel, and the
score applies exactly the 20-point title-missing deduction — not
additionally the 10-point too-short deduction, although the sentinel itself
is shorter than 30 characters. -/
theorem C6_missing_title (html : String) (h : hasTitleOpen html.data = false) :
    extractTitle html = noTitleSentinel
    ∧ titlePenalty (extractTitle html) = 20
    ∧ ∀ pd : PageData, pd.title = extractTitle html →
        calculateSeoScore pd = max 0 (min 100 (100 -
          (20 + descriptionPenalty pd.metaDescription + headingsPenalty pd.headings.length
            + imagesPenalty pd.images.length + linksPenalty pd.links.length))) := by
  have hs : extractTitle html = noTitleSentinel := by
    rw [extractTitle, titleScan_eq_none_of_no_open _ h]
  have hp : titlePenalty (extractTitle html) = 20 := by
    rw [hs]
    decide
  refine ⟨hs, hp, ?_⟩
  intro pd hpd
  rw [calculateSeoScore_eq, hpd, hp]

/-- Witness for `C6_missing_title` on title-free HTML. -/
theorem C6_missing_title_witness :
    extractTitle "<p>hello</p>" = noTitleSentinel
    ∧ titlePenalty (extractTitle "<p>hello</p>") = 20 :=
  ⟨(C6_missing_title "<p>hello</p>" (by decide)).1,
   (C6_missing_title "<p>hello</p>" (by decide)).2.1⟩

theorem parseNatAux_stop (cs : List Char) (acc : Nat)
    (h : ∀ c, cs.head? = some c → isDigitChar c = false) :
    parseNatAux cs acc = (acc, cs) := by
  cases cs with
  | nil => rfl
  | cons c cs' => rw [parseNatAux, if_neg (by simp [h c rfl])]

theorem digitChar_facts :
    ∀ n, n < 10 → isDigitChar (digitChar n) = true ∧ digitVal (digitChar n) = n := by decide

theorem hexDigitChar_facts :
    ∀ n, n < 16 → isHexChar (hexDigitChar n) = true ∧ hexVal (hexDigitChar n) = n := by decide

theorem printNatAux_digits (fuel : Nat) :
    ∀ n, n < fuel → ∃ c cs0, printNatAux fuel n = c :: cs0 ∧ isDigitChar c = true := by
  induction fuel with
  | zero => intro n h; omega
  | succ fuel ih =>
    intro n h
    rw [printNatAux]
    by_cases h10 : n < 10
    · rw [if_pos h10]
      exact ⟨digitChar n, [], rfl, (digitChar_facts n h10).1⟩
    · rw [if_neg h10]
      have hdiv : n / 10 < n := Nat.div_lt_self (by omega) (by omega)
      obtain ⟨c, cs0, heq, hdig⟩ := ih (n / 10) (by omega)
      exact ⟨c, cs0 ++ [digitChar (n % 10)], by rw [heq]; rfl, hdig⟩

theorem parseNatAux_printNatAux (fuel : Nat) :
    ∀ n acc rest, n < fuel →
      parseNatAux (printNatAux fuel n ++ rest) acc
        = parseNatAux rest (acc * 10 ^ (printNatAux fuel n).length + n) := by
  induction fuel with
  | zero => intro n _ _ h; omega
  | succ fuel ih =>
    intro n acc rest h
    simp only [printNatAux]
    by_cases h10 : n < 10
    · simp only [if_pos h10]
      rw [List.singleton_append, parseNatAux, if_pos (digitChar_facts n h10).1,
        (digitChar_facts n h10).2]
      norm_num
    · simp only [if_neg h10]
      have hdiv : n / 10 < n := Nat.div_lt_self (by omega) (by omega)
      rw [List.append_assoc, List.singleton_append,
        ih (n / 10) acc (digitChar (n % 10) :: rest) (by omega),
        parseNatAux, if_pos (digitChar_facts (n % 10) (by omega)).1,
        (digitChar_facts (n % 10) (by omega)).2]
      congr 1
      rw [List.length_append, List.length_singleton, pow_succ]
      have hdm : n / 10 * 10 + n % 10 = n := by omega
      set L := (printNatAux fuel (n / 10)).length
      calc (acc * 10 ^ L + n / 10) * 10 + n % 10
          = acc * (10 ^ L * 10) + (n / 10 * 10 + n % 10) := by ring
        _ = acc * (10 ^ L * 10) + n := by rw [hdm]

theorem parseNat_printNat (n : Nat) (rest : List Char)
    (hrest : ∀ c, rest.head? = some c → isDigitChar c = false) :
    parseNatAux (printNat n ++ rest) 0 = (n, rest) := by
  rw [printNat, parseNatAux_printNatAux (n + 1) n 0 rest (by omega),
    parseNatAux_stop rest _ hrest]
  norm_num

theorem parseStringBody_escChar (c : Char) (tail : List Char) :
    parseStringBody (escChar c ++ tail)
      = (parseStringBody tail).map (fun p => (c :: p.1, p.2)) := by
  by_cases h1 : c = '"'
  · subst h1
    show parseStringBody ('\\' :: '"' :: tail) = _
    rw [parseStringBody.eq_def]
    dsimp only
    rw [if_neg (by decide), if_pos rfl, if_neg (by decide)]
    simp [decodeEsc]
  · by_cases h2 : c = '\\'
    · subst h2
      show parseStringBody ('\\' :: '\\' :: tail) = _
      rw [parseStringBody.eq_def]
      dsimp only
      rw [if_neg (by decide), if_pos rfl, if_neg (by decide)]
      simp [decodeEsc]
    · by_cases h3 : 32 ≤ c.toNat
      · simp only [escChar, if_neg h1, if_neg h2, if_pos h3, List.singleton_append]
        rw [parseStringBody.eq_def]
        dsimp only
        rw [if_neg h1, if_neg h2]
      · by_cases hb : c = '\x08'
        · subst hb
          show parseStringBody ('\\' :: 'b' :: tail) = _
          rw [parseStringBody.eq_def]
          dsimp only
          rw [if_neg (by decide), if_pos rfl, if_neg (by decide)]
          simp [decodeEsc]
        · by_cases ht : c = '\t'
          · subst ht
            show parseStringBody ('\\' :: 't' :: tail) = _
            rw [parseStringBody.eq_def]
            dsimp only
            rw [if_neg (by decide), if_pos rfl, if_neg (by decide)]
            simp [decodeEsc]
          · by_cases hn : c = '\n'
            · subst hn
              show parseStringBody ('\\' :: 'n' :: tail) = _
              rw [parseStringBody.eq_def]
              dsimp only
              rw [if_neg (by decide), if_pos rfl, if_neg (by decide)]
              simp [decodeEsc]
            · by_cases hf : c = '\x0c'
              · subst hf
                show parseStringBody ('\\' :: 'f' :: tail) = _
                rw [parseStringBody.eq_def]
                dsimp only
                rw [if_neg (by decide), if_pos rfl, if_neg (by decide)]
                simp [decodeEsc]
              · by_cases hr : c = '\r'
                · subst hr
                  show parseStringBody ('\\' :: 'r' :: tail) = _
                  rw [parseStringBody.eq_def]
                  dsimp only
                  rw [if_neg (by decide), if_pos rfl, if_neg (by decide)]
                  simp [decodeEsc]
                · have hlt : c.toNat < 32 := by omega
                  have hhi : c.toNat / 16 < 16 := by omega
                  have hlo : c.toNat % 16 < 16 := by omega
                  simp only [escChar, if_neg h1, if_neg h2, if_neg (by omega : ¬ 32 ≤ c.toNat),
                    if_neg hb, if_neg ht, if_neg hn, if_neg hf, if_neg hr]
                  rw [List.cons_append, List.cons_append, List.cons_append, List.cons_append,
                    List.cons_append, List.cons_append, List.nil_append]
                  rw [parseStringBody.eq_def]
                  dsimp only
                  rw [if_neg (by decide), if_pos rfl, if_pos rfl]
                  have hcond : (isHexChar '0' && isHexChar '0'
                      && isHexChar (hexDigitChar (c.toNat / 16))
                      && isHexChar (hexDigitChar (c.toNat % 16))) = true := by
                    rw [(hexDigitChar_facts _ hhi).1, (hexDigitChar_facts _ hlo).1]
                    decide
                  rw [if_pos hcond]
                  have hval : ((hexVal '0' * 16 + hexVal '0') * 16
                      + hexVal (hexDigitChar (c.toNat / 16))) * 16
                      + hexVal (hexDigitChar (c.toNat % 16)) = c.toNat := by
                    rw [(hexDigitChar_facts _ hhi).2, (hexDigitChar_facts _ hlo).2]
                    have h0 : hexVal '0' = 0 := by decide
                    rw [h0]
                    omega
                  rw [hval, Char.ofNat_toNat]

theorem parseStringBody_escStr (cs tail : List Char) :
    parseStringBody (escStr cs ++ ('"' :: tail)) = some (cs, tail) := by
  induction cs with
  | nil =>
    show parseStringBody ('"' :: tail) = some ([], tail)
    rw [parseStringBody.eq_def]
    dsimp only
    rw [if_pos rfl]
  | cons c cs ih =>
    have hstep : escStr (c :: cs) = escChar c ++ escStr cs := rfl
    rw [hstep, List.append_assoc, parseStringBody_escChar, ih]
    rfl

theorem printJson_head (j : Json) :
    ∃ c cs0, printJson j = c :: cs0
      ∧ (c = '"' ∨ c = '[' ∨ c = '{' ∨ isDigitChar c = true) := by
  cases j with
  | str s =>
    refine ⟨'"', escStr s.data ++ ['"'], ?_, Or.inl rfl⟩
    rw [printJson]
  | num n =>
    obtain ⟨c, cs0, heq, hdig⟩ := printNatAux_digits (n + 1) n (by omega)
    refine ⟨c, cs0, ?_, Or.inr (Or.inr (Or.inr hdig))⟩
    rw [printJson, printNat, heq]
  | arr l =>
    refine ⟨'[', printItems l ++ [']'], ?_, Or.inr (Or.inl rfl)⟩
    rw [printJson]
  | obj l =>
    refine ⟨'{', printMembers l ++ ['}'], ?_, Or.inr (Or.inr (Or.inl rfl))⟩
    rw [printJson]

theorem headNotDigit_arrTail (vs : List Json) (rest : List Char) :
    ∀ c, (printArrRest vs ++ (']' :: rest)).head? = some c → isDigitChar c = false := by
  cases vs with
  | nil =>
    intro c hc
    rw [printArrRest, List.nil_append] at hc
    cases hc
    decide
  | cons v vs =>
    intro c hc
    rw [printArrRest, List.cons_append] at hc
    cases hc
    decide

theorem headNotDigit_objTail (ms : List (String × Json)) (rest : List Char) :
    ∀ c, (printObjRest ms ++ ('}' :: rest)).head? = some c → isDigitChar c = false := by
  cases ms with
  | nil =>
    intro c hc
    rw [printObjRest, List.nil_append] at hc
    cases hc
    decide
  | cons m ms =>
    obtain ⟨k, v⟩ := m
    intro c hc
    rw [printObjRest, List.cons_append] at hc
    cases hc
    decide

theorem jweight_pos (j : Json) : 1 ≤ jweight j := by
  cases j <;> rw [jweight] <;> omega

theorem jweightArr_pos (l : List Json) : 1 ≤ jweightArr l := by
  cases l <;> rw [jweightArr] <;> omega

theorem jweightObj_pos (l : List (String × Json)) : 1 ≤ jweightObj l := by
  cases l with
  | nil => rw [jweightObj]
  | cons m ms => obtain ⟨k, v⟩ := m; rw [jweightObj]; omega

/-- Parsing inverts printing, in every grammar position, given enough fuel
and a continuation that cannot extend a number literal. -/
theorem parseF_print (fuel : Nat) :
    (∀ j rest, jweight j ≤ fuel → (∀ c, rest.head? = some c → isDigitChar c = false) →
      parseF fuel .val (printJson j ++ rest) = some (j, rest))
    ∧ (∀ l rest, jweightArr l ≤ fuel →
      parseF fuel .arrFirst (printItems l ++ (']' :: rest)) = some (.arr l, rest))
    ∧ (∀ l rest, jweightArr l ≤ fuel →
      parseF fuel .arrRest (printArrRest l ++ (']' :: rest)) = some (.arr l, rest))
    ∧ (∀ l rest, jweightObj l ≤ fuel →
      parseF fuel .objFirst (printMembers l ++ ('}' :: rest)) = some (.obj l, rest))
    ∧ (∀ l rest, jweightObj l ≤ fuel →
      parseF fuel .objRest (printObjRest l ++ ('}' :: rest)) = some (.obj l, rest)) := by
  induction fuel with
  | zero =>
    refine ⟨?_, ?_, ?_, ?_, ?_⟩
    · intro j _ hw _; have := jweight_pos j; omega
    · intro l _ hw; have := jweightArr_pos l; omega
    · intro l _ hw; have := jweightArr_pos l; omega
    · intro l _ hw; have := jweightObj_pos l; omega
    · intro l _ hw; have := jweightObj_pos l; omega
  | succ fuel ih =>
    obtain ⟨ihV, ihAF, ihAR, ihOF, ihOR⟩ := ih
    refine ⟨?_, ?_, ?_, ?_, ?_⟩
    · intro j rest hw hrest
      cases j with
      | str s =>
        rw [printJson, List.cons_append, List.append_assoc, List.singleton_append]
        rw [parseF.eq_def]
        dsimp only
        rw [if_pos rfl, parseStringBody_escStr]
        rfl
      | num n =>
        obtain ⟨c, cs0, heq, hdig⟩ := printNatAux_digits (n + 1) n (by omega)
        have hpn : printNat n = c :: cs0 := by rw [printNat, heq]
        rw [printJson, hpn, List.cons_append]
        rw [parseF.eq_def]
        dsimp only
        rw [if_neg (by rintro rfl; revert hdig; decide),
          if_neg (by rintro rfl; revert hdig; decide),
          if_neg (by rintro rfl; revert hdig; decide),
          if_pos hdig]
        have hin : c :: (cs0 ++ rest) = printNat n ++ rest := by
          rw [hpn, List.cons_append]
        rw [hin, parseNat_printNat n rest hrest]
      | arr l =>
        rw [printJson, List.cons_append, List.append_assoc, List.singleton_append]
        rw [parseF.eq_def]
        dsimp only
        rw [if_neg (by decide), if_pos rfl]
        have hwA : jweightArr l ≤ fuel := by rw [jweight] at hw; omega
        exact ihAF l rest hwA
      | obj l =>
        rw [printJson, List.cons_append, List.append_assoc, List.singleton_append]
        rw [parseF.eq_def]
        dsimp only
        rw [if_neg (by decide), if_neg (by decide), if_pos rfl]
        have hwO : jweightObj l ≤ fuel := by rw [jweight] at hw; omega
        exact ihOF l rest hwO
    · intro l rest hw
      cases l with
      | nil =>
        rw [printItems, List.nil_append]
        rw [parseF.eq_def]
        dsimp only
        rw [if_pos rfl]
      | cons v vs =>
        rw [printItems, List.append_assoc]
        obtain ⟨c, cs0, heq, hc⟩ := printJson_head v
        rw [heq, List.cons_append]
        rw [parseF.eq_def]
        dsimp only
        have hne : ¬ c = ']' := by
          rcases hc with rfl | rfl | rfl | hd
          · decide
          · decide
          · decide
          · rintro rfl; revert hd; decide
        rw [if_neg hne]
        rw [jweightArr] at hw
        have hval := ihV v (printArrRest vs ++ (']' :: rest)) (by omega)
          (headNotDigit_arrTail vs rest)
        rw [show c :: (cs0 ++ (printArrRest vs ++ (']' :: rest)))
            = printJson v ++ (printArrRest vs ++ (']' :: rest)) from by
          rw [heq, List.cons_append]]
        rw [hval]
        dsimp only
        rw [ihAR vs rest (by omega)]
    · intro l rest hw
      cases l with
      | nil =>
        rw [printArrRest, List.nil_append]
        rw [parseF.eq_def]
        dsimp only
        rw [if_pos rfl]
      | cons v vs =>
        rw [printArrRest, List.cons_append, List.append_assoc]
        rw [parseF.eq_def]
        dsimp only
        rw [if_neg (by decide), if_pos rfl]
        rw [jweightArr] at hw
        rw [ihV v (printArrRest vs ++ (']' :: rest)) (by omega)
          (headNotDigit_arrTail vs rest)]
        dsimp only
        rw [ihAR vs rest (by omega)]
    · intro l rest hw
      cases l with
      | nil =>
        rw [printMembers, List.nil_append]
        rw [parseF.eq_def]
        dsimp only
        rw [if_pos rfl]
      | cons m ms =>
        obtain ⟨k, v⟩ := m
        rw [printMembers]
        simp only [List.append_assoc, List.cons_append, List.nil_append]
        rw [parseF.eq_def]
        dsimp only
        rw [if_neg (by decide), if_pos rfl, parseStringBody_escStr]
        dsimp only
        rw [if_pos rfl]
        rw [jweightObj] at hw
        rw [ihV v (printObjRest ms ++ ('}' :: rest)) (by omega)
          (headNotDigit_objTail ms rest)]
        dsimp only
        rw [ihOR ms rest (by omega)]
    · intro l rest hw
      cases l with
      | nil =>
        rw [printObjRest, List.nil_append]
        rw [parseF.eq_def]
        dsimp only
        rw [if_pos rfl]
      | cons m ms =>
        obtain ⟨k, v⟩ := m
        rw [printObjRest]
        simp only [List.append_assoc, List.cons_append, List.nil_append]
        rw [parseF.eq_def]
        dsimp only
        rw [if_neg (by decide), if_pos rfl, if_pos rfl, parseStringBody_escStr]
        dsimp only
        rw [if_pos rfl]
        rw [jweightObj] at hw
        rw [ihV v (printObjRest ms ++ ('}' :: rest)) (by omega)
          (headNotDigit_objTail ms rest)]
        dsimp only
        rw [ihOR ms rest (by omega)]

mutual
theorem jweight_le_print (j : Json) : jweight j ≤ 2 * (printJson j).length := by
  cases j with
  | str s =>
    rw [jweight, printJson]
    simp only [List.length_cons, List.length_append, List.length_singleton]
    omega
  | num n =>
    obtain ⟨c, cs0, heq, _⟩ := printNatAux_digits (n + 1) n (by omega)
    rw [jweight, printJson, printNat, heq]
    simp only [List.length_cons]
    omega
  | arr l =>
    cases l with
    | nil =>
      rw [jweight, jweightArr, printJson, printItems]
      simp
    | cons v vs =>
      have h1 := jweight_le_print v
      have h2 := jweightArr_le_print vs
      rw [jweight, jweightArr, printJson, printItems]
      simp only [List.length_cons, List.length_append, List.length_singleton]
      omega
  | obj l =>
    cases l with
    | nil =>
      rw [jweight, jweightObj, printJson, printMembers]
      simp
    | cons m ms =>
      obtain ⟨k, v⟩ := m
      have h1 := jweight_le_print v
      have h2 := jweightObj_le_print ms
      rw [jweight, jweightObj, printJson, printMembers]
      simp only [List.length_cons, List.length_append, List.length_singleton]
      omega
theorem jweightArr_le_print (l : List Json) : jweightArr l ≤ 2 * (printArrRest l).length + 2 := by
  cases l with
  | nil => rw [jweightArr]; omega
  | cons v vs =>
    have h1 := jweight_le_print v
    have h2 := jweightArr_le_print vs
    rw [jweightArr, printArrRest]
    simp only [List.length_cons, List.length_append]
    omega
theorem jweightObj_le_print (l : List (String × Json)) :
    jweightObj l ≤ 2 * (printObjRest l).length + 2 := by
  cases l with
  | nil => rw [jweightObj]; omega
  | cons m ms =>
    obtain ⟨k, v⟩ := m
    have h1 := jweight_le_print v
    have h2 := jweightObj_le_print ms
    rw [jweightObj, printObjRest]
    simp only [List.length_cons, List.length_append, List.length_singleton]
    omega
end

/-- The round trip at the heart of the cache invariant: parsing the
serialization of any value of the cache-path value space returns the value
itself — the serialized form is a faithful, order-preserving encoding. -/
theorem parseJson_stringifyJson (j : Json) : parseJson (stringifyJson j) = some j := by
  have hfuel : jweight j ≤ 2 * (printJson j).length + 1 := by
    have := jweight_le_print j
    omega
  have h := (parseF_print (2 * (printJson j).length + 1)).1 j [] hfuel
    (fun c hc => by simp at hc)
  rw [List.append_nil] at h
  show (match parseF (2 * (printJson j).length + 1) ParseMode.val (printJson j) with
    | some (j, []) => some j
    | _ => none) = some j
  rw [h]

theorem kvGet_kvPut (kv : KVStore) (k v : String) : kvGet (kvPut kv k v) k = some v := by
  rw [kvPut, kvGet, List.find?_cons_of_pos _ (by simp)]
  rfl

theorem jsStringOr_ne_empty (o : Option String) (d : String) (hd : d ≠ "") :
    jsStringOr o d ≠ "" := by
  cases o with
  | none => exact hd
  | some s =>
    rw [jsStringOr]
    split_ifs with h
    · exact hd
    · exact h

/-- Claim C3 (amended): the sources list of a chat response is the ordered
list of each retrieved passage's declared source label with `Unknown`
substituted for an absent or empty label; the trailing `filter(Boolean)`
removes nothing (every label is a nonempty string after the `|| 'Unknown'`
default), and duplicates are retained — the list is NOT
duplicate-filtered. -/
theorem C3_sources_order_no_dedup (mts : List VMatch) :
    sourceLabels mts
      = mts.map (fun m => jsStringOr (m.metadata.bind VMetadata.source) "Unknown") := by
  rw [sourceLabels]
  apply List.filter_eq_self.mpr
  intro s hs
  obtain ⟨m, _, rfl⟩ := List.mem_map.mp hs
  simpa using jsStringOr_ne_empty _ "Unknown" (by decide)

/-- Claim C3 counterexample: with two retrieved passages declaring the same
source label, the returned sources list repeats the label — it is not
duplicate-filtered. -/
theorem C3_counterexample :
    sourceLabels [dupSourceMatch, dupSourceMatch]
      = ["SEO Best Practices", "SEO Best Practices"]
    ∧ ¬ (sourceLabels [dupSourceMatch, dupSourceMatch]).Nodup := by
  refine ⟨rfl, by decide⟩

/-- Claim C4 (amended): the analyze endpoint rejects a missing `url` with
the 400 client-input error before invoking any collaborator (empty trace),
and that rejection is a different constructor from the 500 collaborator
error; the chat endpoint, however, performs no validation of `message` —
its first action is always the embedding-collaborator call, even when the
message is missing. -/
theorem C4_missing_field_validation :
    (∀ (env : AnalyzeEnv) (kv : KVStore),
      analyzeHandler env kv none = (.clientErr "URL is required", kv, []))
    ∧ (∀ (env : ChatEnv) (sid : Option String),
        ((chatHandler env none sid).2).head? = some Collab.embed)
    ∧ (∀ m e, AnalyzeResult.clientErr m ≠ AnalyzeResult.serverErr e) := by
  refine ⟨fun env kv => rfl, ?_, fun m e h => AnalyzeResult.noConfusion h⟩
  intro env sid
  unfold chatHandler
  cases env.embed none with
  | error e => rfl
  | ok emb =>
    dsimp only
    cases chatAfterEmbed env none sid emb with
    | mk r t => rfl

/-- Claim C4 counterexample: a chat request with no `message` is not
rejected before the collaborators — the embedding collaborator is invoked
(nonempty trace) and the outcome is the 500 collaborator error, not a 400
client-input rejection. -/
theorem C4_counterexample :
    (chatHandler chatEnvEmbedFails none none).2 = [Collab.embed]
    ∧ (chatHandler chatEnvEmbedFails none none).2 ≠ []
    ∧ (chatHandler chatEnvEmbedFails none none).1 = Resp.serverErr "embedding failed" := by
  refine ⟨rfl, by decide, rfl⟩

/-- Claim C5: for every HTML input, the score computed on the extracted
features is an integer in [0,100], and the scoring pipeline is a pure
function of the HTML — a second run yields the identical score, issues and
recommendations. -/
theorem C5_pipeline_bounded_pure (html : String) :
    0 ≤ calculateSeoScore (extractPageData html)
    ∧ calculateSeoScore (extractPageData html) ≤ 100
    ∧ (calculateSeoScore (extractPageData html), findSeoIssues (extractPageData html),
        generateRecommendations (extractPageData html))
      = (calculateSeoScore (extractPageData html), findSeoIssues (extractPageData html),
        generateRecommendations (extractPageData html)) := by
  refine ⟨?_, ?_, rfl⟩ <;> rw [calculateSeoScore_eq] <;> omega

/-- Claim C8: on a cache miss the analyze endpoint computes and stores the
serialized result; a second call for the same URL (within the TTL, no
eviction modelled) is served from the cache alone (trace `[cacheRead]`,
no re-fetch, re-extraction, retrieval or scoring), flagged `cached := true`,
and its data — `JSON.parse` of the stored `JSON.stringify` — is the very
same JSON value, field for field and in order, as the fresh result. -/
theorem C8_cache_hit_verbatim (env : AnalyzeEnv) (kv : KVStore) (u html : String)
    (emb : Nat) (mts : List VMatch)
    (hu : u ≠ "")
    (hmiss : kvGet kv ("analysis:" ++ u) = none)
    (hfetch : env.fetch u = .ok html)
    (hembed : env.embed (some ("SEO analysis for: " ++ (extractPageData html).title
        ++ ". Meta: " ++ (extractPageData html).metaDescription)) = .ok emb)
    (hquery : env.vquery emb 10 = .ok mts)
    (hdb : ∀ a b c d, env.dbRun a b c d = .ok ()) :
    ∃ j : Json,
      j = analyzeResultJson (extractPageData html) ((joinSep (ragTexts mts)).take 500)
      ∧ (analyzeHandler env kv (some u)).1 = .ok ⟨false, j, "Analysis complete"⟩
      ∧ (analyzeHandler env ((analyzeHandler env kv (some u)).2.1) (some u)).1
          = .ok ⟨true, j, "Retrieved from cache"⟩
      ∧ (analyzeHandler env ((analyzeHandler env kv (some u)).2.1) (some u)).2.2
          = [Collab.cacheRead] := by
  have h1 : analyzeHandler env kv (some u)
      = (.ok ⟨false, analyzeResultJson (extractPageData html)
              ((joinSep (ragTexts mts)).take 500), "Analysis complete"⟩,
         kvPut kv ("analysis:" ++ u)
           (stringifyJson (analyzeResultJson (extractPageData html)
             ((joinSep (ragTexts mts)).take 500))),
         [.cacheRead, .fetchUrl, .embed, .vectorQuery, .dbWrite, .cacheWrite]) := by
    unfold analyzeHandler
    dsimp only
    rw [if_neg hu, hmiss]
    dsimp only
    rw [hfetch]
    dsimp only
    rw [hembed]
    dsimp only
    rw [hquery]
    dsimp only
    rw [hdb]
  have h2 : analyzeHandler env
      (kvPut kv ("analysis:" ++ u)
        (stringifyJson (analyzeResultJson (extractPageData html)
          ((joinSep (ragTexts mts)).take 500)))) (some u)
      = (.ok ⟨true, analyzeResultJson (extractPageData html)
              ((joinSep (ragTexts mts)).take 500), "Retrieved from cache"⟩,
         kvPut kv ("analysis:" ++ u)
           (stringifyJson (analyzeResultJson (extractPageData html)
             ((joinSep (ragTexts mts)).take 500))),
         [Collab.cacheRead]) := by
    unfold analyzeHandler
    dsimp only
    rw [if_neg hu, kvGet_kvPut]
    dsimp only
    rw [parseJson_stringifyJson]
  refine ⟨analyzeResultJson (extractPageData html) ((joinSep (ragTexts mts)).take 500),
    rfl, ?_, ?_, ?_⟩
  · rw [h1]
  · rw [h1]
    dsimp only
    rw [h2]
  · rw [h1]
    dsimp only
    rw [h2]

/-- Witness for `C8_cache_hit_verbatim` at a concrete environment, empty
cache and URL. -/
theorem C8_cache_hit_verbatim_witness :
    ∃ j : Json,
      j = analyzeResultJson (extractPageData "") ((joinSep (ragTexts [])).take 500)
      ∧ (analyzeHandler analyzeEnvOk [] (some "https://example.com")).1
          = .ok ⟨false, j, "Analysis complete"⟩
      ∧ (analyzeHandler analyzeEnvOk
            ((analyzeHandler analyzeEnvOk [] (some "https://example.com")).2.1)
            (some "https://example.com")).1
          = .ok ⟨true, j, "Retrieved from cache"⟩
      ∧ (analyzeHandler analyzeEnvOk
            ((analyzeHandler analyzeEnvOk [] (some "https://example.com")).2.1)
            (some "https://example.com")).2.2
          = [Collab.cacheRead] :=
  C8_cache_hit_verbatim analyzeEnvOk [] "https://example.com" "" 0 []
    (by decide) rfl rfl rfl rfl (fun _ _ _ _ => rfl)
